import Mathlib

/-!
# Host and topology cache manager

A shallow embedding of `pkg/bk-monitor-worker/internal/alarm/cmdbcache/host.go`.

* Go `int` values are `Int`; no arithmetic is done on them, only formatting and comparison.
* A Go `map[K]V` is an association list (`GoMap`); the list order is one possible iteration
  order and is never observed except through an explicit iteration-order argument.
* A Go slice whose nil-ness matters (JSON `null` against `[]`) is an `Option (List α)`.
* Calls on the embedded `BaseCacheManager` and on the Redis client are recorded as a list of
  `StoreCall`s; their outcomes are arguments of the functions that make them.
-/

namespace Cmdbcache

/-! ## Go primitives -/

/-- Go `error` values, kept as their message. -/
abbrev GoError := String

/-- The message of `errors.Wrap(err, msg)`. -/
def errorsWrap (err : GoError) (msg : String) : GoError := msg ++ ": " ++ err

/-- The outcome of a Go call that may return normally, return an error, or panic. -/
inductive GoResult (α : Type) where
  | ok (a : α)
  | err (e : GoError)
  | panic (msg : String)

/-- Sequencing of calls that may fail: the first error or panic ends the computation. -/
def GoResult.bind {α β : Type} (r : GoResult α) (f : α → GoResult β) : GoResult β :=
  match r with
  | GoResult.ok a => f a
  | GoResult.err e => GoResult.err e
  | GoResult.panic msg => GoResult.panic msg

/-- The pointer dereference `*p`; a nil pointer panics. -/
def deref {α : Type} (p : Option α) : GoResult α :=
  match p with
  | some a => GoResult.ok a
  | none => GoResult.panic "invalid memory address or nil pointer dereference"

/-- The decimal digit `d` (for `d < 10`) as a character. -/
def digitChar (d : Nat) : Char := Char.ofNat (48 + d)

/-- Decimal digits of `n`, most significant first; `fuel` bounds the number of digits. -/
def natDigits : Nat → Nat → List Char
  | 0, _ => []
  | fuel + 1, n =>
    if n < 10 then [digitChar n] else natDigits fuel (n / 10) ++ [digitChar (n % 10)]

/-- Decimal digits of a natural number. -/
def natToDec (n : Nat) : List Char := natDigits (n + 1) n

/-- Characters of `strconv.Itoa(i)`, which is also what `%d` prints. -/
def itoaChars : Int → List Char
  | Int.ofNat n => natToDec n
  | Int.negSucc n => '-' :: natToDec (n + 1)

/-- The Go function `strconv.Itoa`; `fmt.Sprintf("%d", i)` gives the same string. -/
def itoa (i : Int) : String := String.mk (itoaChars i)

/-- The double quote character. -/
def dquoteChar : Char := Char.ofNat 34

/-- The one-character string made of a double quote. -/
def dquote : String := String.singleton dquoteChar

/-- Split a character list at every occurrence of `sep`. -/
def splitChars (sep : Char) : List Char → List (List Char)
  | [] => [[]]
  | c :: cs =>
    if c = sep then [] :: splitChars sep cs
    else
      match splitChars sep cs with
      | [] => [[c]]
      | w :: ws => (c :: w) :: ws

/-- The Go function `strings.Split(s, sep)` for a one-character separator. -/
def stringsSplit (s : String) (sep : Char) : List String :=
  (splitChars sep s.data).map String.mk

/-- The Go function `strings.Join(elems, sep)`. -/
def stringsJoin : List String → String → String
  | [], _ => ""
  | [a], _ => a
  | a :: b :: rest, sep => a ++ sep ++ stringsJoin (b :: rest) sep

/-- The number written by a list of decimal digits (`strconv.Atoi` on digits). -/
def decValue (cs : List Char) : Nat := cs.foldl (fun acc c => acc * 10 + (c.toNat - 48)) 0

/-- A Go map as an association list; a key occurs at most once in a map built by `store`. -/
abbrev GoMap (κ V : Type) := List (κ × V)

/-- The expression `v, ok := m[k]`. -/
def GoMap.lookup {κ V : Type} [DecidableEq κ] : GoMap κ V → κ → Option V
  | [], _ => none
  | (k', v) :: rest, k => if k' = k then some v else GoMap.lookup rest k

/-- The statement `m[k] = v`. -/
def GoMap.store {κ V : Type} [DecidableEq κ] : GoMap κ V → κ → V → GoMap κ V
  | [], k, v => [(k, v)]
  | (k', v') :: rest, k, v =>
    if k' = k then (k, v) :: rest else (k', v') :: GoMap.store rest k v

/-- The keys of a map. -/
def GoMap.keys {κ V : Type} (m : GoMap κ V) : List κ := m.map Prod.fst

/-- Append to a possibly nil slice: `append(s, x)` is never nil. -/
def goAppend {α : Type} (s : Option (List α)) (x : α) : Option (List α) :=
  some (s.getD [] ++ [x])

/-- The elements visited by `for _, x := range s` on a possibly nil slice. -/
def goRange {α : Type} (s : Option (List α)) : List α := s.getD []

/-! ## Data model -/

/-- A dynamic value of a topology link summary (`interface{}` in `TopoLinks`): the instance id
is an `int`, the names and the object type are strings. -/
inductive TopoValue where
  | int (i : Int)
  | str (s : String)

/-- One node summary of a topology link: `map[string]interface{}`. -/
abbrev TopoLinkNode := GoMap String TopoValue

/-- The cached host entity `AlarmHostInfo`. -/
structure AlarmHostInfo where
  BkBizId : Int
  BkAgentId : String
  Operator : Option (List String)
  BkBakOperator : Option (List String)
  BkCloudId : Int
  BkComment : String
  BkHostId : Int
  BkHostInnerip : String
  BkHostInneripV6 : String
  BkHostName : String
  BkHostOuterip : String
  BkHostOuteripV6 : String
  BkOsName : String
  BkOsType : String
  BkOsVersion : String
  BkOsBit : String
  BkProvinceName : String
  BkState : String
  BkStateName : String
  BkIspName : String
  BkSupplierAccount : String
  BkMem : Option Int
  BkDisk : Option Int
  BkCpu : Option Int
  BkCpuModule : String
  ServiceTemplateId : String
  SrvStatus : String
  IdcUnitName : String
  NetDeviceId : String
  RackId : String
  BkSvrDeviceClsName : String
  SvrDeviceClass : String
  DockerClientVersion : String
  DockerServerVersion : String
  IP : String
  BkSetIds : Option (List Int)
  BkModuleIds : Option (List Int)
  BkCloudName : String
  DisplayName : String
  TopoLinks : GoMap String (List TopoLinkNode)

def hostCacheKey : String := "cmdb.host"

def hostAgentIDCacheKey : String := "cmdb.agent_id"

def hostIPCacheKey : String := "cmdb.host_ip"

def topoCacheKey : String := "cmdb.topo"

/-- Modelled from the spec: the host part of the raw upstream record
`cmdb.ListBizHostsTopoDataInfo`, whose declaration is not among the sources; the fields are
those the normalizer reads, pointer fields being `Option`. -/
structure ListBizHostsTopoDataInfoHost where
  BkBizId : Int
  BkAgentId : String
  Operator : String
  BkBakOperator : String
  BkCloudId : Int
  BkComment : String
  BkHostId : Int
  BkHostInnerip : String
  BkHostInneripV6 : String
  BkHostName : String
  BkHostOuterip : String
  BkHostOuteripV6 : String
  BkOsName : String
  BkOsType : String
  BkOsVersion : String
  BkOsBit : String
  BkProvinceName : Option String
  BkState : Option String
  BkStateName : Option String
  BkIspName : Option String
  BkSupplierAccount : String
  BkMem : Option Int
  BkDisk : Option Int
  BkCpu : Option Int
  BkCpuModule : String
  SrvStatus : Option String
  IdcUnitName : String
  NetDeviceId : String
  RackId : String
  BkSvrDeviceClsName : String
  SvrDeviceClass : String
  DockerClientVersion : String
  DockerServerVersion : String

/-- Modelled from the spec: a module of one topology path of a raw host record. -/
structure ListBizHostsTopoDataInfoModule where
  BkModuleId : Int

/-- Modelled from the spec: one topology path (a set and its modules) of a raw host record. -/
structure ListBizHostsTopoDataInfoTopo where
  BkSetId : Int
  Module : List ListBizHostsTopoDataInfoModule

/-- Modelled from the spec: the raw upstream host-with-topology record
`cmdb.ListBizHostsTopoDataInfo`. -/
structure ListBizHostsTopoDataInfo where
  Host : ListBizHostsTopoDataInfoHost
  Topo : List ListBizHostsTopoDataInfoTopo

/-- The operator handling of the normalizer: the empty string gives the empty non-nil slice
`[]string{}`, any other string is split at the commas. -/
def splitOperator (raw : String) : Option (List String) :=
  if raw = "" then some [] else some (stringsSplit raw ',')

/-- The set-id and module-id collection loop of the normalizer, from two nil slices. -/
def collectTopoIds (topo : List ListBizHostsTopoDataInfoTopo) :
    Option (List Int) × Option (List Int) :=
  topo.foldl
    (fun acc t =>
      (goAppend acc.1 t.BkSetId,
        t.Module.foldl (fun ms module => goAppend ms module.BkModuleId) acc.2))
    (none, none)

/-- The function `NewAlarmHostInfoByListBizHostsTopoDataInfo`. The dereferences guarded by a
nil test are written as matches; the one at `bkState = *info.Host.SrvStatus` is a `deref`. -/
def NewAlarmHostInfoByListBizHostsTopoDataInfo (info : ListBizHostsTopoDataInfo) :
    GoResult AlarmHostInfo :=
  let operator := splitOperator info.Host.Operator
  let bkBakOperator := splitOperator info.Host.BkBakOperator
  let ids := collectTopoIds info.Topo
  let displayName :=
    if info.Host.BkHostInnerip ≠ "" then info.Host.BkHostInnerip
    else if info.Host.BkHostName ≠ "" then info.Host.BkHostName
    else if info.Host.BkHostInneripV6 ≠ "" then info.Host.BkHostInneripV6
    else ""
  let srvStatus :=
    match info.Host.SrvStatus with
    | some s => s
    | none => ""
  let bkStateResult : GoResult String :=
    if srvStatus ≠ "" then deref info.Host.SrvStatus
    else
      match info.Host.BkState with
      | some s => GoResult.ok s
      | none => GoResult.ok ""
  let bkProvinceName :=
    match info.Host.BkProvinceName with
    | some s => s
    | none => ""
  let bkStateName :=
    match info.Host.BkStateName with
    | some s => s
    | none => ""
  let bkIspName :=
    match info.Host.BkIspName with
    | some s => s
    | none => ""
  bkStateResult.bind fun bkState =>
    GoResult.ok
      { BkBizId := info.Host.BkBizId
        BkAgentId := info.Host.BkAgentId
        Operator := operator
        BkBakOperator := bkBakOperator
        BkCloudId := info.Host.BkCloudId
        BkComment := info.Host.BkComment
        BkHostId := info.Host.BkHostId
        BkHostInnerip := info.Host.BkHostInnerip
        BkHostInneripV6 := info.Host.BkHostInneripV6
        BkHostName := info.Host.BkHostName
        BkHostOuterip := info.Host.BkHostOuterip
        BkHostOuteripV6 := info.Host.BkHostOuteripV6
        BkOsName := info.Host.BkOsName
        BkOsType := info.Host.BkOsType
        BkOsVersion := info.Host.BkOsVersion
        BkOsBit := info.Host.BkOsBit
        BkProvinceName := bkProvinceName
        BkIspName := bkIspName
        BkState := bkState
        BkStateName := bkStateName
        SrvStatus := srvStatus
        BkSupplierAccount := info.Host.BkSupplierAccount
        BkMem := info.Host.BkMem
        BkDisk := info.Host.BkDisk
        BkCpu := info.Host.BkCpu
        BkCpuModule := info.Host.BkCpuModule
        ServiceTemplateId := ""
        IdcUnitName := info.Host.IdcUnitName
        NetDeviceId := info.Host.NetDeviceId
        RackId := info.Host.RackId
        BkSvrDeviceClsName := info.Host.BkSvrDeviceClsName
        SvrDeviceClass := info.Host.SvrDeviceClass
        DockerClientVersion := info.Host.DockerClientVersion
        DockerServerVersion := info.Host.DockerServerVersion
        IP := info.Host.BkHostInnerip
        BkSetIds := ids.1
        BkModuleIds := ids.2
        BkCloudName := ""
        DisplayName := displayName
        TopoLinks := [] }

/-! ## JSON encoding (`encoding/json`) -/

/-- A lower-case hexadecimal digit. -/
def hexChar (n : Nat) : Char := if n < 10 then Char.ofNat (48 + n) else Char.ofNat (87 + n)

/-- The escape `\u00XX` of a character below 256. -/
def jsonUnicodeEscape (n : Nat) : List Char :=
  [Char.ofNat 92, 'u', '0', '0', hexChar (n / 16), hexChar (n % 16)]

/-- How `json.Marshal` writes one character of a string: quote and backslash are escaped,
newline, carriage return and tab have short escapes, other control characters and the HTML
characters `<`, `>`, `&` are written `\u00XX`, and the line separators U+2028 and U+2029 are
written `\u2028` and `\u2029`. -/
def jsonEscapeChar (c : Char) : List Char :=
  let n := c.toNat
  if n = 34 then [Char.ofNat 92, Char.ofNat 34]
  else if n = 92 then [Char.ofNat 92, Char.ofNat 92]
  else if n = 10 then [Char.ofNat 92, 'n']
  else if n = 13 then [Char.ofNat 92, 'r']
  else if n = 9 then [Char.ofNat 92, 't']
  else if n < 32 ∨ n = 60 ∨ n = 62 ∨ n = 38 then jsonUnicodeEscape n
  else if n = 8232 then [Char.ofNat 92, 'u', '2', '0', '2', '8']
  else if n = 8233 then [Char.ofNat 92, 'u', '2', '0', '2', '9']
  else [c]

/-- A JSON string literal. -/
def jsonString (s : String) : String :=
  dquote ++ String.mk (s.data.flatMap jsonEscapeChar) ++ dquote

/-- A JSON array of already encoded elements. -/
def jsonArray (elems : List String) : String := "[" ++ stringsJoin elems "," ++ "]"

/-- A JSON object of already encoded values, in the order given. -/
def jsonObject (fields : List (String × String)) : String :=
  "\x7b" ++ stringsJoin (fields.map fun f => jsonString f.1 ++ ":" ++ f.2) "," ++ "\x7d"

/-- A slice that may be nil: nil is `null`. -/
def jsonSlice {α : Type} (enc : α → String) : Option (List α) → String
  | none => "null"
  | some xs => jsonArray (xs.map enc)

/-- A pointer to an int: nil is `null`. -/
def jsonIntPtr : Option Int → String
  | none => "null"
  | some i => itoa i

/-- Order on strings by code point, which is the byte order of their UTF-8 encoding. -/
def charsLe : List Char → List Char → Bool
  | [], _ => true
  | _ :: _, [] => false
  | a :: as, b :: bs => if a.toNat < b.toNat then true else if b.toNat < a.toNat then false
    else charsLe as bs

/-- Insert an entry into a list of entries sorted by key. -/
def insertByKey {V : Type} (e : String × V) : List (String × V) → List (String × V)
  | [] => [e]
  | x :: xs => if charsLe e.1.data x.1.data then e :: x :: xs else x :: insertByKey e xs

/-- The entries of a map sorted by key, the order in which `json.Marshal` writes a map. -/
def sortByKey {V : Type} (m : GoMap String V) : List (String × V) :=
  m.foldr insertByKey []

/-- Encoding of a dynamic value of a topology link summary. -/
def jsonTopoValue : TopoValue → String
  | TopoValue.int i => itoa i
  | TopoValue.str s => jsonString s

/-- Encoding of a `map[string]interface{}` node summary. -/
def jsonTopoLinkNode (node : TopoLinkNode) : String :=
  jsonObject ((sortByKey node).map fun e => (e.1, jsonTopoValue e.2))

/-- Encoding of the `TopoLinks` field. -/
def jsonTopoLinks (links : GoMap String (List TopoLinkNode)) : String :=
  jsonObject ((sortByKey links).map fun e => (e.1, jsonArray (e.2.map jsonTopoLinkNode)))

/-- The bytes of `json.Marshal(host)` for an `AlarmHostInfo`: the fields in declaration order
under their `json` tags. -/
def jsonMarshal (host : AlarmHostInfo) : String :=
  jsonObject
    [ ("bk_biz_id", itoa host.BkBizId),
      ("bk_agent_id", jsonString host.BkAgentId),
      ("operator", jsonSlice jsonString host.Operator),
      ("bk_bak_operator", jsonSlice jsonString host.BkBakOperator),
      ("bk_cloud_id", itoa host.BkCloudId),
      ("bk_comment", jsonString host.BkComment),
      ("bk_host_id", itoa host.BkHostId),
      ("bk_host_innerip", jsonString host.BkHostInnerip),
      ("bk_host_innerip_v6", jsonString host.BkHostInneripV6),
      ("bk_host_name", jsonString host.BkHostName),
      ("bk_host_outerip", jsonString host.BkHostOuterip),
      ("bk_host_outerip_v6", jsonString host.BkHostOuteripV6),
      ("bk_os_name", jsonString host.BkOsName),
      ("bk_os_type", jsonString host.BkOsType),
      ("bk_os_version", jsonString host.BkOsVersion),
      ("bk_os_bit", jsonString host.BkOsBit),
      ("bk_province_name", jsonString host.BkProvinceName),
      ("bk_state", jsonString host.BkState),
      ("bk_state_name", jsonString host.BkStateName),
      ("bk_isp_name", jsonString host.BkIspName),
      ("bk_supplier_account", jsonString host.BkSupplierAccount),
      ("bk_mem", jsonIntPtr host.BkMem),
      ("bk_disk", jsonIntPtr host.BkDisk),
      ("bk_cpu", jsonIntPtr host.BkCpu),
      ("bk_cpu_module", jsonString host.BkCpuModule),
      ("service_template_id", jsonString host.ServiceTemplateId),
      ("srv_status", jsonString host.SrvStatus),
      ("idc_unit_name", jsonString host.IdcUnitName),
      ("net_device_id", jsonString host.NetDeviceId),
      ("rack_id", jsonString host.RackId),
      ("bk_svr_device_cls_name", jsonString host.BkSvrDeviceClsName),
      ("svr_device_class", jsonString host.SvrDeviceClass),
      ("docker_client_version", jsonString host.DockerClientVersion),
      ("docker_server_version", jsonString host.DockerServerVersion),
      ("ip", jsonString host.IP),
      ("bk_set_ids", jsonSlice itoa host.BkSetIds),
      ("bk_module_ids", jsonSlice itoa host.BkModuleIds),
      ("bk_cloud_name", jsonString host.BkCloudName),
      ("display_name", jsonString host.DisplayName),
      ("topo_link", jsonTopoLinks host.TopoLinks) ]

/-! ## The cache manager -/

/-- Modelled from the spec: a node of the business topology tree,
`cmdb.SearchBizInstTopoData`, whose declaration is not among the sources. -/
inductive SearchBizInstTopoData where
  | mk (BkInstId : Int) (BkInstName : String) (BkObjId : String) (BkObjName : String)
      (Child : List SearchBizInstTopoData)

/-- The statement `node.Child = append(node.Child, child)`. -/
def SearchBizInstTopoData.appendChild :
    SearchBizInstTopoData → SearchBizInstTopoData → SearchBizInstTopoData
  | SearchBizInstTopoData.mk i n o objName ch, child => SearchBizInstTopoData.mk i n o objName (ch ++ [child])

/-- Modelled from the spec: `GetId`, the node identifier `obj_id|inst_id`. -/
def SearchBizInstTopoData.GetId : SearchBizInstTopoData → String
  | SearchBizInstTopoData.mk i _ o _ _ => o ++ "|" ++ itoa i

/-- The value `refreshTopoCache` stores for one node. -/
def SearchBizInstTopoData.summary : SearchBizInstTopoData → String
  | SearchBizInstTopoData.mk i n o objName _ =>
    jsonTopoLinkNode
      [ ("bk_inst_id", TopoValue.int i), ("bk_inst_name", TopoValue.str n),
        ("bk_obj_id", TopoValue.str o), ("bk_obj_name", TopoValue.str objName) ]

mutual

/-- Modelled from the spec: `Traverse`, the nodes of a tree in depth-first pre-order. -/
def SearchBizInstTopoData.Traverse : SearchBizInstTopoData → List SearchBizInstTopoData
  | SearchBizInstTopoData.mk i n o objName ch =>
    SearchBizInstTopoData.mk i n o objName ch :: SearchBizInstTopoData.TraverseAll ch

/-- The traversal of a list of sibling trees, one after the other. -/
def SearchBizInstTopoData.TraverseAll : List SearchBizInstTopoData → List SearchBizInstTopoData
  | [] => []
  | c :: cs => SearchBizInstTopoData.Traverse c ++ SearchBizInstTopoData.TraverseAll cs

end

/-- A call made on the embedded `BaseCacheManager` or on its Redis client. -/
inductive BaseCall where
  | initUpdatedFieldSet (keys : List String)
  | updateHashMapCache (key : String) (data : GoMap String String)
  | expire (key : String)
  | hmget (key : String) (fields : List String)
  | hdel (key : String) (fields : List String)
  | reset

/-- Modelled from the spec: the embedded `BaseCacheManager`, whose declaration is not among
the sources. `GetCacheKey` is its key-naming method. The concurrency limit is checked when
the manager is built (an invalid limit is a configuration error, fatal at construction), so
a manager holds a positive limit. Its other state is reached only through `BaseCall`s. -/
structure BaseCacheManager where
  GetCacheKey : String → String
  ConcurrentLimit : Nat
  limit_pos : 0 < ConcurrentLimit

/-- The struct `HostAndTopoCacheManager`; `hosts` is a slice of which only the elements are
read, so the nil slice and the empty slice are both `[]`. -/
structure HostAndTopoCacheManager where
  base : BaseCacheManager
  hosts : List AlarmHostInfo
  topo : Option SearchBizInstTopoData
  hostIpMap : GoMap String (GoMap String Unit)

/-- The function `NewHostAndTopoCacheManager`; `newBase` is what `NewBaseCacheManager`
returns. -/
def NewHostAndTopoCacheManager (newBase : Except GoError BaseCacheManager) :
    Except GoError (HostAndTopoCacheManager × List BaseCall) :=
  match newBase with
  | Except.error err => Except.error (errorsWrap err "new cache Manager failed")
  | Except.ok manager =>
    Except.ok
      ({ base := manager, hosts := [], topo := none, hostIpMap := [] },
        [BaseCall.initUpdatedFieldSet
          [hostCacheKey, hostAgentIDCacheKey, hostIPCacheKey, topoCacheKey]])

/-- The composite key `fmt.Sprintf("%s|%d", host.BkHostInnerip, host.BkCloudId)`. -/
def compositeKey (host : AlarmHostInfo) : String :=
  host.BkHostInnerip ++ "|" ++ itoa host.BkCloudId

/-- The element recorded in the ip-ownership index: the composite key between double quotes,
`fmt.Sprintf("\"%s|%d\"", host.BkHostInnerip, host.BkCloudId)`. -/
def quotedCompositeKey (host : AlarmHostInfo) : String :=
  dquote ++ host.BkHostInnerip ++ "|" ++ itoa host.BkCloudId ++ dquote

/-- One iteration of the ip-ownership loop of `RefreshByBiz`. -/
def recordHostIp (hostIpMap : GoMap String (GoMap String Unit)) (host : AlarmHostInfo) :
    GoMap String (GoMap String Unit) :=
  if host.BkHostInnerip ≠ "" then
    let hostIpMap :=
      match GoMap.lookup hostIpMap host.BkHostInnerip with
      | some _ => hostIpMap
      | none => GoMap.store hostIpMap host.BkHostInnerip []
    let inner := (GoMap.lookup hostIpMap host.BkHostInnerip).getD []
    GoMap.store hostIpMap host.BkHostInnerip (GoMap.store inner (quotedCompositeKey host) ())
  else hostIpMap

/-- The ip-ownership loop of `RefreshByBiz` over the fetched hosts. -/
def recordHostIps (hostIpMap : GoMap String (GoMap String Unit))
    (hosts : List AlarmHostInfo) : GoMap String (GoMap String Unit) :=
  hosts.foldl recordHostIp hostIpMap

/-- Whether the ip-ownership index holds the element `key` in the entry of `ip`. -/
def ipIndexHas (hostIpMap : GoMap String (GoMap String Unit)) (ip key : String) : Bool :=
  match GoMap.lookup hostIpMap ip with
  | some hostIdMapping => decide (key ∈ GoMap.keys hostIdMapping)
  | none => false

/-- The map `topoNodes` built by `refreshTopoCache`. -/
def topoNodes (topo : SearchBizInstTopoData) : GoMap String String :=
  topo.Traverse.foldl (fun nodes node => GoMap.store nodes node.GetId node.summary) []

/-- One iteration of the loop of `refreshHostCache`; `marshal` is `json.Marshal`. -/
def hostIndexStep (marshal : AlarmHostInfo → String) (index : GoMap String String)
    (host : AlarmHostInfo) : GoMap String String :=
  let value := marshal host
  let index :=
    if host.BkHostInnerip ≠ "" then GoMap.store index (compositeKey host) value else index
  if host.BkHostId > 0 then GoMap.store index (itoa host.BkHostId) value else index

/-- The map `hosts` built by `refreshHostCache`. -/
def hostIndex (marshal : AlarmHostInfo → String) (hosts : List AlarmHostInfo) :
    GoMap String String :=
  hosts.foldl (hostIndexStep marshal) []

/-- The map `agentIDs` built by `refreshHostAgentIDCache`. -/
def agentIDIndex (hosts : List AlarmHostInfo) : GoMap String String :=
  hosts.foldl
    (fun agentIDs host =>
      if host.BkAgentId ≠ "" then GoMap.store agentIDs host.BkAgentId (itoa host.BkHostId)
      else agentIDs)
    []

/-- The end of the three refresh methods: the error of `UpdateHashMapCache` is wrapped. -/
def wrapUpdate (upd : Option GoError) : GoResult Unit :=
  match upd with
  | some err => GoResult.err (errorsWrap err "update hashmap cache failed")
  | none => GoResult.ok ()

/-- The method `refreshTopoCache`; `upd` is what `UpdateHashMapCache` returns. A nil `topo`
panics in the traversal. -/
def refreshTopoCache (m : HostAndTopoCacheManager) (upd : Option GoError) :
    List BaseCall × GoResult Unit :=
  match m.topo with
  | none => ([], GoResult.panic "invalid memory address or nil pointer dereference")
  | some topo =>
    ([BaseCall.updateHashMapCache (m.base.GetCacheKey topoCacheKey) (topoNodes topo)],
      wrapUpdate upd)

/-- The method `refreshHostCache`; `upd` is what `UpdateHashMapCache` returns. -/
def refreshHostCache (marshal : AlarmHostInfo → String) (m : HostAndTopoCacheManager)
    (upd : Option GoError) : List BaseCall × GoResult Unit :=
  ([BaseCall.updateHashMapCache (m.base.GetCacheKey hostCacheKey) (hostIndex marshal m.hosts)],
    wrapUpdate upd)

/-- The method `refreshHostAgentIDCache`; `upd` is what `UpdateHashMapCache` returns. -/
def refreshHostAgentIDCache (m : HostAndTopoCacheManager) (upd : Option GoError) :
    List BaseCall × GoResult Unit :=
  ([BaseCall.updateHashMapCache (m.base.GetCacheKey hostAgentIDCacheKey)
      (agentIDIndex m.hosts)],
    wrapUpdate upd)

/-! ## Fetching one business unit -/

/-- Modelled from the spec: a cloud region of the "list cloud regions" answer. -/
structure SearchCloudAreaDataInfo where
  BkCloudId : Int
  BkCloudName : String

/-- Modelled from the spec: a module of the built-in container of a business unit. -/
structure GetBizInternalModuleDataModule where
  BkModuleId : Int
  BkModuleName : String

/-- Modelled from the spec: the built-in topology container of a business unit. -/
structure GetBizInternalModuleData where
  BkSetId : Int
  BkSetName : String
  Module : List GetBizInternalModuleDataModule

/-- What the collaborators of packages `api` and `cmdb` answer during one call of
`getHostAndTopoByBiz`: the client lookup, the batched host pages (each page with the outcome
of its `mapstructure.Decode`), the cloud regions, the topology trees and the built-in
container (each after `HandleApiResultError`), and the method `ToTopoLinks`, which fills the
module-id to topo-link map from the root of the tree. -/
structure CmdbApi where
  GetCmdbApi : Option GoError
  ListBizHostsTopo : Except GoError (List (Except GoError (List ListBizHostsTopoDataInfo)))
  SearchCloudArea : Except GoError (List SearchCloudAreaDataInfo)
  SearchBizInstTopo : Except GoError (List SearchBizInstTopoData)
  GetBizInternalModule : Except GoError GetBizInternalModuleData
  ToTopoLinks : SearchBizInstTopoData → GoMap Int (List TopoLinkNode)

/-- The inner loop over `res.Data.Info`: each raw host is normalized and given the unit id. -/
def decodePage (bkBizID : Int) (hosts : List AlarmHostInfo) :
    List ListBizHostsTopoDataInfo → GoResult (List AlarmHostInfo)
  | [] => GoResult.ok hosts
  | rawHost :: rest =>
    (NewAlarmHostInfoByListBizHostsTopoDataInfo rawHost).bind fun host =>
      decodePage bkBizID (hosts ++ [{ host with BkBizId := bkBizID }]) rest

/-- The loop over the result pages; a page that does not decode ends the fetch. -/
def decodePages (bkBizID : Int) (hosts : List AlarmHostInfo) :
    List (Except GoError (List ListBizHostsTopoDataInfo)) → GoResult (List AlarmHostInfo)
  | [] => GoResult.ok hosts
  | Except.error err :: _ => GoResult.err (errorsWrap err "decode response failed")
  | Except.ok info :: rest =>
    (decodePage bkBizID hosts info).bind fun hosts => decodePages bkBizID hosts rest

/-- The cloud-region naming loop: the name of the region, or its id in decimal. -/
def fillCloudName (cloudIdToName : GoMap Int String) (host : AlarmHostInfo) : AlarmHostInfo :=
  let cloudName :=
    match GoMap.lookup cloudIdToName host.BkCloudId with
    | some name => name
    | none => itoa host.BkCloudId
  { host with BkCloudName := cloudName }

/-- The key `fmt.Sprintf("module|%d", bkModuleId)`. -/
def moduleKey (bkModuleId : Int) : String := "module|" ++ itoa bkModuleId

/-- One iteration of the attach loop: a module id that is not in the computed map is
skipped. -/
def attachStep (moduleIdToTopoLinks : GoMap Int (List TopoLinkNode)) (host : AlarmHostInfo)
    (bkModuleId : Int) : AlarmHostInfo :=
  match GoMap.lookup moduleIdToTopoLinks bkModuleId with
  | none => host
  | some topoLink =>
    { host with TopoLinks := GoMap.store host.TopoLinks (moduleKey bkModuleId) topoLink }

/-- The attach loop for one host, over its module ids. -/
def attachTopoLinks (moduleIdToTopoLinks : GoMap Int (List TopoLinkNode))
    (host : AlarmHostInfo) : AlarmHostInfo :=
  (goRange host.BkModuleIds).foldl (attachStep moduleIdToTopoLinks) host

/-- The synthetic set node of the built-in container, with its modules as children. -/
def internalSetNode (data : GetBizInternalModuleData) : SearchBizInstTopoData :=
  data.Module.foldl
    (fun setNode module =>
      setNode.appendChild
        (SearchBizInstTopoData.mk module.BkModuleId module.BkModuleName "module" "Module" []))
    (SearchBizInstTopoData.mk data.BkSetId data.BkSetName "set" "Set" [])

/-- The function `getHostAndTopoByBiz`. -/
def getHostAndTopoByBiz (api : CmdbApi) (bkBizID : Int) :
    GoResult (List AlarmHostInfo × SearchBizInstTopoData) :=
  match api.GetCmdbApi with
  | some err => GoResult.err (errorsWrap err "get cmdb api client failed")
  | none =>
    match api.ListBizHostsTopo with
    | Except.error err => GoResult.err err
    | Except.ok results =>
      (decodePages bkBizID [] results).bind fun hosts =>
        match api.SearchCloudArea with
        | Except.error err => GoResult.err err
        | Except.ok cloudAreas =>
          let cloudIdToName : GoMap Int String :=
            cloudAreas.foldl
              (fun names cloudArea => GoMap.store names cloudArea.BkCloudId cloudArea.BkCloudName)
              []
          let hosts := hosts.map (fillCloudName cloudIdToName)
          match api.SearchBizInstTopo with
          | Except.error err => GoResult.err err
          | Except.ok data =>
            match api.GetBizInternalModule with
            | Except.error err => GoResult.err err
            | Except.ok internalModule =>
              let setNode := internalSetNode internalModule
              match data with
              | [] => GoResult.panic "index out of range [0] with length 0"
              | root :: _ =>
                let root := root.appendChild setNode
                let moduleIdToTopoLinks := api.ToTopoLinks root
                let hosts := hosts.map (attachTopoLinks moduleIdToTopoLinks)
                GoResult.ok (hosts, root)

/-! ## Operations of the manager -/

/-- What `UpdateHashMapCache` returns to each of the three publication sub-tasks. -/
structure PublishOutcomes where
  topo : Option GoError
  host : Option GoError
  agentID : Option GoError

/-- The method `RefreshByBiz`. The three sub-tasks run concurrently and are joined; each one
only reads the manager and makes one call, listed here in source order, and its result is
logged and dropped. -/
def RefreshByBiz (marshal : AlarmHostInfo → String) (m : HostAndTopoCacheManager)
    (api : CmdbApi) (bkBizId : Int) (upd : PublishOutcomes) :
    HostAndTopoCacheManager × List BaseCall × GoResult Unit :=
  match getHostAndTopoByBiz api bkBizId with
  | GoResult.err err => (m, [], GoResult.err (errorsWrap err "get host by biz failed"))
  | GoResult.panic msg => (m, [], GoResult.panic msg)
  | GoResult.ok (hosts, topo) =>
    let m := { m with hosts := hosts, topo := some topo }
    let m := { m with hostIpMap := recordHostIps m.hostIpMap hosts }
    let topoTask := refreshTopoCache m upd.topo
    let hostTask := refreshHostCache marshal m upd.host
    let agentTask := refreshHostAgentIDCache m upd.agentID
    (m, topoTask.1 ++ hostTask.1 ++ agentTask.1, GoResult.ok ())

/-- The host list a call of `getHostAndTopoByBiz` returns, empty when the call fails. -/
def fetchedHosts (api : CmdbApi) (bkBizId : Int) : List AlarmHostInfo :=
  match getHostAndTopoByBiz api bkBizId with
  | GoResult.ok (hosts, _) => hosts
  | GoResult.err _ => []
  | GoResult.panic _ => []

/-- Whether a call of `getHostAndTopoByBiz` returns without error. -/
def fetchSucceeds (api : CmdbApi) (bkBizId : Int) : Bool :=
  match getHostAndTopoByBiz api bkBizId with
  | GoResult.ok _ => true
  | GoResult.err _ => false
  | GoResult.panic _ => false

/-- The manager after a sequence of `RefreshByBiz` calls for one business unit, each with its
own upstream answers and publication outcomes, nothing else happening in between. -/
def refreshSequence (marshal : AlarmHostInfo → String) (m : HostAndTopoCacheManager)
    (bkBizId : Int) : List (CmdbApi × PublishOutcomes) → HostAndTopoCacheManager
  | [] => m
  | call :: rest =>
    refreshSequence marshal (RefreshByBiz marshal m call.1 bkBizId call.2).1 bkBizId rest

/-- The order in which a `range` over a map visits its keys: Go leaves it unspecified, so it
is an argument; a legal order is a permutation of the keys. -/
abbrev RangeOrder := List String → List String

/-- A legal iteration order visits every key once. -/
def RangeOrder.Legal (order : RangeOrder) : Prop := ∀ keys, (order keys).Perm keys

/-- The value `RefreshGlobal` writes for one IP: the elements of the inner set in the order
the inner `range` visits them, joined by commas between brackets. -/
def hostIpValue (inner : String → RangeOrder) (ip : String) (hostIdMapping : GoMap String Unit) :
    String :=
  "[" ++ stringsJoin (inner ip (GoMap.keys hostIdMapping)) "," ++ "]"

/-- One iteration of the outer loop of `RefreshGlobal`, at the key `ip`. -/
def hostIpStep (inner : String → RangeOrder) (hostIpMap : GoMap String (GoMap String Unit))
    (data : GoMap String String) (ip : String) : GoMap String String :=
  match GoMap.lookup hostIpMap ip with
  | some hostIdMapping => GoMap.store data ip (hostIpValue inner ip hostIdMapping)
  | none => data

/-- The map `data` built by `RefreshGlobal`; `outer` orders the loop over the IPs and
`inner ip` the loop over the set of that IP. -/
def hostIpData (outer : RangeOrder) (inner : String → RangeOrder)
    (hostIpMap : GoMap String (GoMap String Unit)) : GoMap String String :=
  (outer (GoMap.keys hostIpMap)).foldl (hostIpStep inner hostIpMap) []

/-- The method `RefreshGlobal`; `upd` is what `UpdateHashMapCache` returns. The errors of the
four `Expire` calls are logged and dropped. -/
def RefreshGlobal (outer : RangeOrder) (inner : String → RangeOrder)
    (m : HostAndTopoCacheManager) (upd : Option GoError) :
    HostAndTopoCacheManager × List BaseCall × GoResult Unit :=
  let key := m.base.GetCacheKey hostIPCacheKey
  let data := hostIpData outer inner m.hostIpMap
  match upd with
  | some err =>
    (m, [BaseCall.updateHashMapCache key data],
      GoResult.err (errorsWrap err "update host ip cache failed"))
  | none =>
    (m,
      BaseCall.updateHashMapCache key data ::
        [hostCacheKey, topoCacheKey, hostAgentIDCacheKey, hostIPCacheKey].map
          (fun k => BaseCall.expire (m.base.GetCacheKey k)),
      GoResult.ok ())

/-- The field-to-value map of the first call of a list of calls, when that call is an
`UpdateHashMapCache`. -/
def writtenData : List BaseCall → GoMap String String
  | BaseCall.updateHashMapCache _ data :: _ => data
  | _ => []

/-- The method `Reset`: the base manager is reset and the ip-ownership index is replaced by
an empty map. -/
def Reset (m : HostAndTopoCacheManager) : HostAndTopoCacheManager × List BaseCall :=
  ({ m with hostIpMap := [] }, [BaseCall.reset])

/-! ## Change events -/

/-- A dynamic value of a change event (`interface{}`), as `encoding/json` decodes one; `F` is
the type of `float64` values, which stay abstract. -/
inductive EventValue (F : Type) where
  | null
  | bool (b : Bool)
  | float64 (f : F)
  | str (s : String)
  | arr (xs : List (EventValue F))
  | obj (fields : List (String × EventValue F))

/-- A change event: `map[string]interface{}`. -/
abbrev Event (F : Type) := GoMap String (EventValue F)

/-- The three operations `host.go` applies to a `float64`: the conversion `int(x)` and the
comparisons `x != 0` and `x > 0`. -/
structure Float64Ops (F : Type) where
  toInt : F → Int
  isZero : F → Bool
  isPositive : F → Bool

/-- The two-valued type assertion `v, ok := event[field].(string)`. -/
def Event.getString {F : Type} (event : Event F) (field : String) : Option String :=
  match GoMap.lookup event field with
  | some (EventValue.str s) => some s
  | _ => none

/-- The two-valued type assertion `v, ok := event[field].(float64)`. -/
def Event.getFloat64 {F : Type} (event : Event F) (field : String) : Option F :=
  match GoMap.lookup event field with
  | some (EventValue.float64 f) => some f
  | _ => none

/-- The one-valued type assertion `event[field].(string)`, which panics on another type. -/
def Event.mustString {F : Type} (event : Event F) (field : String) : GoResult String :=
  match event.getString field with
  | some s => GoResult.ok s
  | none => GoResult.panic "interface conversion: interface is not string"

/-- The one-valued type assertion `event[field].(float64)`, which panics on another type. -/
def Event.mustFloat64 {F : Type} (event : Event F) (field : String) : GoResult F :=
  match event.getFloat64 field with
  | some f => GoResult.ok f
  | none => GoResult.panic "interface conversion: interface is not float64"

/-- What an event-driven operation did: the calls it made itself, the business units for
which it started `RefreshByBiz`, and how it ended. -/
structure EventsResult where
  calls : List BaseCall
  refreshes : List Int
  result : GoResult Unit

/-- The key-extraction loop of the `host` case of `UpdateByEvents`. The second assertion
reuses the variable `ok`, so only the cloud id is tested. -/
def updateHostKeys {F : Type} (ops : Float64Ops F) (events : List (Event F)) : List String :=
  events.foldl
    (fun hostKeys event =>
      let ip := (event.getString "bk_host_innerip").getD ""
      let hostKeys :=
        match event.getFloat64 "bk_cloud_id" with
        | some bkCloudId =>
          if ip ≠ "" then hostKeys ++ [ip ++ "|" ++ itoa (ops.toInt bkCloudId)] else hostKeys
        | none => hostKeys
      match event.getFloat64 "bk_host_id" with
      | some bkHostId =>
        if ops.isPositive bkHostId then hostKeys ++ [itoa (ops.toInt bkHostId)] else hostKeys
      | none => hostKeys)
    []

/-- The loop of the `host` case over the values read from the store: a missing value or one
that does not decode is skipped; `unmarshal` is `json.Unmarshal` into a host pointer, which
stays nil on the JSON value `null`. -/
def hostBizIds (unmarshal : String → Except GoError (Option AlarmHostInfo))
    (needUpdateBizIds : GoMap Int Unit) : List (Option String) → GoResult (GoMap Int Unit)
  | [] => GoResult.ok needUpdateBizIds
  | none :: rest => hostBizIds unmarshal needUpdateBizIds rest
  | some value :: rest =>
    match unmarshal value with
    | Except.error _ => hostBizIds unmarshal needUpdateBizIds rest
    | Except.ok host =>
      (deref host).bind fun host =>
        hostBizIds unmarshal (GoMap.store needUpdateBizIds host.BkBizId ()) rest

/-- The loop of the `mainline_instance` case of `UpdateByEvents`; `marshalTopo` is
`json.Marshal` of the four-field node summary. -/
def updateTopoNodes {F : Type} (ops : Float64Ops F)
    (marshalTopo : Int → Option (EventValue F) → String → Option (EventValue F) → String)
    (topoNodes : GoMap String String) : List (Event F) → GoResult (GoMap String String)
  | [] => GoResult.ok topoNodes
  | event :: rest =>
    (event.mustString "bk_obj_id").bind fun bkObjId =>
      (event.mustFloat64 "bk_inst_id").bind fun bkInstId =>
        let value :=
          marshalTopo (ops.toInt bkInstId) (GoMap.lookup event "bk_inst_name") bkObjId
            (GoMap.lookup event "bk_obj_name")
        updateTopoNodes ops marshalTopo
          (GoMap.store topoNodes (bkObjId ++ "|" ++ itoa (ops.toInt bkInstId)) value) rest

/-- One iteration of the loop of the `host_relation` case of `UpdateByEvents`: an event
whose `bk_biz_id` is not a `float64` is skipped. -/
def relationStep {F : Type} (ops : Float64Ops F) (needUpdateBizIds : GoMap Int Unit)
    (event : Event F) : GoMap Int Unit :=
  match event.getFloat64 "bk_biz_id" with
  | some bkBizID => GoMap.store needUpdateBizIds (ops.toInt bkBizID) ()
  | none => needUpdateBizIds

/-- The loop of the `host_relation` case of `UpdateByEvents`. -/
def relationBizIds {F : Type} (ops : Float64Ops F) (events : List (Event F)) : GoMap Int Unit :=
  events.foldl (relationStep ops) []

/-- The end of `UpdateByEvents`: one `RefreshByBiz` goroutine is started for every key of
`needUpdateBizIds`, at most `ConcurrentLimit` of them running at a time, and all are joined.
The goroutines share the manager; what they do to it is not followed here, only which units
are refreshed. -/
def refreshUnits (needUpdateBizIds : GoMap Int Unit) : List Int := GoMap.keys needUpdateBizIds

/-- The method `UpdateByEvents`; `hmget` is what `HMGet` returns and `upd` what
`UpdateHashMapCache` returns. -/
def UpdateByEvents {F : Type} (ops : Float64Ops F)
    (marshalTopo : Int → Option (EventValue F) → String → Option (EventValue F) → String)
    (unmarshal : String → Except GoError (Option AlarmHostInfo))
    (m : HostAndTopoCacheManager) (resourceType : String) (events : List (Event F))
    (hmget : Except GoError (List (Option String))) (upd : Option GoError) : EventsResult :=
  if events.length = 0 then { calls := [], refreshes := [], result := GoResult.ok () }
  else if resourceType = "host" then
    let key := m.base.GetCacheKey hostCacheKey
    let hostKeys := updateHostKeys ops events
    if hostKeys.length = 0 then { calls := [], refreshes := [], result := GoResult.ok () }
    else
      match hmget with
      | Except.error err =>
        { calls := [BaseCall.hmget key hostKeys], refreshes := [],
          result := GoResult.err (errorsWrap err "hmget failed") }
      | Except.ok values =>
        match hostBizIds unmarshal [] values with
        | GoResult.ok needUpdateBizIds =>
          { calls := [BaseCall.hmget key hostKeys], refreshes := refreshUnits needUpdateBizIds,
            result := GoResult.ok () }
        | GoResult.err err =>
          { calls := [BaseCall.hmget key hostKeys], refreshes := [], result := GoResult.err err }
        | GoResult.panic msg =>
          { calls := [BaseCall.hmget key hostKeys], refreshes := [],
            result := GoResult.panic msg }
  else if resourceType = "mainline_instance" then
    let key := m.base.GetCacheKey topoCacheKey
    match updateTopoNodes ops marshalTopo [] events with
    | GoResult.ok topoNodes =>
      { calls := [BaseCall.updateHashMapCache key topoNodes], refreshes := [],
        result := wrapUpdate upd }
    | GoResult.err err => { calls := [], refreshes := [], result := GoResult.err err }
    | GoResult.panic msg => { calls := [], refreshes := [], result := GoResult.panic msg }
  else if resourceType = "host_relation" then
    { calls := [], refreshes := refreshUnits (relationBizIds ops events),
      result := GoResult.ok () }
  else { calls := [], refreshes := refreshUnits [], result := GoResult.ok () }

/-- The key-extraction loop of the `host` case of `CleanByEvents`: the agent ids and the
host keys to delete. -/
def cleanHostKeys {F : Type} (ops : Float64Ops F) (events : List (Event F)) :
    List String × List String :=
  events.foldl
    (fun acc event =>
      let agentIds :=
        match event.getString "bk_agent_id" with
        | some agentId => if agentId ≠ "" then acc.1 ++ [agentId] else acc.1
        | none => acc.1
      let hostKeys :=
        match event.getFloat64 "bk_host_id" with
        | some hostId =>
          if ops.isZero hostId then acc.2 else acc.2 ++ [itoa (ops.toInt hostId)]
        | none => acc.2
      let ip := (event.getString "bk_host_innerip").getD ""
      let hostKeys :=
        match event.getFloat64 "bk_cloud_id" with
        | some bkCloudId =>
          if ip ≠ "" then hostKeys ++ [ip ++ "|" ++ itoa (ops.toInt bkCloudId)] else hostKeys
        | none => hostKeys
      (agentIds, hostKeys))
    ([], [])

/-- The loop of the `mainline_instance` case of `CleanByEvents`: the object id is asserted
to be a string, an instance id that is not a `float64` is skipped. -/
def cleanTopoIds {F : Type} (ops : Float64Ops F) (topoIds : List String) :
    List (Event F) → GoResult (List String)
  | [] => GoResult.ok topoIds
  | event :: rest =>
    (event.mustString "bk_obj_id").bind fun bkObjId =>
      match event.getFloat64 "bk_inst_id" with
      | none => cleanTopoIds ops topoIds rest
      | some bkInstId =>
        cleanTopoIds ops (topoIds ++ [bkObjId ++ "|" ++ itoa (ops.toInt bkInstId)]) rest

/-- The method `CleanByEvents`; `hdel` is what `HDel` returns. In the `host` case the errors
of `HDel` are logged and dropped. -/
def CleanByEvents {F : Type} (ops : Float64Ops F) (m : HostAndTopoCacheManager)
    (resourceType : String) (events : List (Event F)) (hdel : Option GoError) :
    List BaseCall × GoResult Unit :=
  if events.length = 0 then ([], GoResult.ok ())
  else if resourceType = "host" then
    let keys := cleanHostKeys ops events
    let agentCalls :=
      if keys.1.length > 0 then [BaseCall.hdel (m.base.GetCacheKey hostAgentIDCacheKey) keys.1]
      else []
    let hostCalls :=
      if keys.2.length > 0 then [BaseCall.hdel (m.base.GetCacheKey hostCacheKey) keys.2]
      else []
    (agentCalls ++ hostCalls, GoResult.ok ())
  else if resourceType = "mainline_instance" then
    let key := m.base.GetCacheKey topoCacheKey
    match cleanTopoIds ops [] events with
    | GoResult.ok topoIds =>
      if topoIds.length = 0 then ([], GoResult.ok ())
      else
        match hdel with
        | some err => ([BaseCall.hdel key topoIds], GoResult.err (errorsWrap err "hdel failed"))
        | none => ([BaseCall.hdel key topoIds], GoResult.ok ())
    | GoResult.err err => ([], GoResult.err err)
    | GoResult.panic msg => ([], GoResult.panic msg)
  else ([], GoResult.ok ())

/-! ## Sample data -/

/-- A raw upstream record with the given inner IP, cloud id, host id and module ids, its other
fields being zero values. -/
def sampleRaw (ip : String) (cloud hostId : Int) (modules : List Int) :
    ListBizHostsTopoDataInfo :=
  { Host :=
      { BkBizId := 0, BkAgentId := "", Operator := "", BkBakOperator := "", BkCloudId := cloud,
        BkComment := "", BkHostId := hostId, BkHostInnerip := ip, BkHostInneripV6 := "",
        BkHostName := "", BkHostOuterip := "", BkHostOuteripV6 := "", BkOsName := "",
        BkOsType := "", BkOsVersion := "", BkOsBit := "", BkProvinceName := none,
        BkState := none, BkStateName := none, BkIspName := none, BkSupplierAccount := "",
        BkMem := none, BkDisk := none, BkCpu := none, BkCpuModule := "", SrvStatus := none,
        IdcUnitName := "", NetDeviceId := "", RackId := "", BkSvrDeviceClsName := "",
        SvrDeviceClass := "", DockerClientVersion := "", DockerServerVersion := "" }
    Topo := if modules = [] then [] else [{ BkSetId := 10, Module := modules.map fun i => ⟨i⟩ }] }

/-- The host the normalizer builds from `sampleRaw ip cloud hostId []` for business unit 5,
with the cloud name the fetch gives it when no cloud region is known. -/
def sampleHost (ip : String) (cloud hostId : Int) : AlarmHostInfo :=
  { BkBizId := 5, BkAgentId := "", Operator := some [], BkBakOperator := some [],
    BkCloudId := cloud, BkComment := "", BkHostId := hostId, BkHostInnerip := ip,
    BkHostInneripV6 := "", BkHostName := "", BkHostOuterip := "", BkHostOuteripV6 := "",
    BkOsName := "", BkOsType := "", BkOsVersion := "", BkOsBit := "", BkProvinceName := "",
    BkState := "", BkStateName := "", BkIspName := "", BkSupplierAccount := "", BkMem := none,
    BkDisk := none, BkCpu := none, BkCpuModule := "", ServiceTemplateId := "", SrvStatus := "",
    IdcUnitName := "", NetDeviceId := "", RackId := "", BkSvrDeviceClsName := "",
    SvrDeviceClass := "", DockerClientVersion := "", DockerServerVersion := "", IP := ip,
    BkSetIds := none, BkModuleIds := none, BkCloudName := itoa cloud,
    DisplayName := ip, TopoLinks := [] }

/-- The topology tree of the sample business unit: a business node without children. -/
def sampleTopo : SearchBizInstTopoData := SearchBizInstTopoData.mk 5 "biz" "biz" "Business" []

/-- The tree a fetch over `sampleApi` returns: `sampleTopo` with the built-in set appended. -/
def sampleRoot : SearchBizInstTopoData :=
  SearchBizInstTopoData.mk 5 "biz" "biz" "Business"
    [SearchBizInstTopoData.mk 2 "idle" "set" "Set" []]

/-- The topo link of module 100 in the tree business 5, set 10, module 100. -/
def sampleChain : List TopoLinkNode :=
  [ [ ("bk_inst_id", TopoValue.int 5), ("bk_inst_name", TopoValue.str "biz"),
      ("bk_obj_id", TopoValue.str "biz"), ("bk_obj_name", TopoValue.str "Business") ],
    [ ("bk_inst_id", TopoValue.int 10), ("bk_inst_name", TopoValue.str "web"),
      ("bk_obj_id", TopoValue.str "set"), ("bk_obj_name", TopoValue.str "Set") ],
    [ ("bk_inst_id", TopoValue.int 100), ("bk_inst_name", TopoValue.str "nginx"),
      ("bk_obj_id", TopoValue.str "module"), ("bk_obj_name", TopoValue.str "Module") ] ]

/-- The host a fetch builds from `sampleRaw "10.0.0.1" 0 1 [100, 200]` when the computed map
holds the chain of module 100 only. -/
def sampleHostWithModules : AlarmHostInfo :=
  { sampleHost "10.0.0.1" 0 1 with
    BkSetIds := some [10]
    BkModuleIds := some [100, 200]
    TopoLinks := [("module|100", sampleChain)] }

/-- An upstream whose every request succeeds, answering the given raw hosts in one page and
the given module-id to topo-link map. -/
def sampleApi (raws : List ListBizHostsTopoDataInfo) (links : GoMap Int (List TopoLinkNode)) :
    CmdbApi :=
  { GetCmdbApi := none
    ListBizHostsTopo := Except.ok [Except.ok raws]
    SearchCloudArea := Except.ok []
    SearchBizInstTopo := Except.ok [sampleTopo]
    GetBizInternalModule := Except.ok { BkSetId := 2, BkSetName := "idle", Module := [] }
    ToTopoLinks := fun _ => links }

/-- An upstream whose host request fails. -/
def failingApi : CmdbApi :=
  { GetCmdbApi := none
    ListBizHostsTopo := Except.error "timeout"
    SearchCloudArea := Except.ok []
    SearchBizInstTopo := Except.ok [sampleTopo]
    GetBizInternalModule := Except.ok { BkSetId := 2, BkSetName := "idle", Module := [] }
    ToTopoLinks := fun _ => [] }

/-- A base manager with a concurrency limit of 5. -/
def sampleBase : BaseCacheManager :=
  { GetCacheKey := fun key => "bkmonitorv3." ++ key, ConcurrentLimit := 5, limit_pos := by decide }

/-- The manager `NewHostAndTopoCacheManager` returns over `sampleBase`. -/
def sampleManager : HostAndTopoCacheManager :=
  { base := sampleBase, hosts := [], topo := none, hostIpMap := [] }

/-- Finite `float64` values as rational numbers: `int(x)` drops the fraction. -/
def rationalOps : Float64Ops ℚ :=
  { toInt := fun x => Int.tdiv x.num x.den
    isZero := fun x => decide (x = 0)
    isPositive := fun x => decide (0 < x) }

/-- A `host_relation` event for the business unit `bkBizId`. -/
def relationEvent (bkBizId : ℚ) : Event ℚ :=
  [("bk_biz_id", EventValue.float64 bkBizId), ("bk_host_id", EventValue.float64 7)]

/-- Publication sub-tasks that all succeed. -/
def publishOk : PublishOutcomes := { topo := none, host := none, agentID := none }

/-- Publication sub-tasks that all fail. -/
def publishFail : PublishOutcomes :=
  { topo := some "redis down", host := some "redis down", agentID := some "redis down" }

/-- One iteration of the loop of `refreshHostAgentIDCache`, under a name: `agentIDIndex` is
the fold of this step. -/
def agentIDStep (agentIDs : GoMap String String) (host : AlarmHostInfo) : GoMap String String :=
  if host.BkAgentId ≠ "" then GoMap.store agentIDs host.BkAgentId (itoa host.BkHostId)
  else agentIDs

/-- The non-empty agent ids of a host list, in list order, one per host that has one. -/
def agentIds (hosts : List AlarmHostInfo) : List String :=
  (hosts.filter fun host => decide (host.BkAgentId ≠ "")).map fun host => host.BkAgentId

/-- A sample host with the given agent id and host id. -/
def sampleAgentHost (agentId : String) (hostId : Int) : AlarmHostInfo :=
  { sampleHost "10.0.0.1" 0 hostId with BkAgentId := agentId }

/-- A `mainline_instance` event with both a string `bk_obj_id` and a numeric `bk_inst_id`. -/
def topoEvent (bkObjId : String) (bkInstId : ℚ) : Event ℚ :=
  [("bk_obj_id", EventValue.str bkObjId), ("bk_inst_id", EventValue.float64 bkInstId),
    ("bk_inst_name", EventValue.str "web")]

/-- A `mainline_instance` event without the field `bk_inst_id`. -/
def topoEventNoInstId : Event ℚ := [("bk_obj_id", EventValue.str "set")]

/-- A `mainline_instance` event without the field `bk_obj_id`. -/
def topoEventNoObjId : Event ℚ := [("bk_inst_id", EventValue.float64 3)]

/-- A stand-in for `json.Marshal` of the four-field node summary: the object id and the
instance id. -/
def sampleMarshalTopo (bkInstId : Int) (_bkInstName : Option (EventValue ℚ)) (bkObjId : String)
    (_bkObjName : Option (EventValue ℚ)) : String :=
  bkObjId ++ ":" ++ itoa bkInstId

/-! ## Lemmas on maps -/

theorem GoMap.lookup_store_self {κ V : Type} [DecidableEq κ] (m : GoMap κ V) (k : κ) (v : V) :
    GoMap.lookup (GoMap.store m k v) k = some v := by
  induction m with
  | nil => simp [GoMap.store, GoMap.lookup]
  | cons e rest ih =>
    obtain ⟨k', v'⟩ := e
    by_cases h : k' = k
    · simp [GoMap.store, GoMap.lookup, h]
    · simp [GoMap.store, GoMap.lookup, h, ih]

theorem GoMap.lookup_store_ne {κ V : Type} [DecidableEq κ] (m : GoMap κ V) (k k' : κ) (v : V)
    (h : k' ≠ k) : GoMap.lookup (GoMap.store m k v) k' = GoMap.lookup m k' := by
  induction m with
  | nil => simp [GoMap.store, GoMap.lookup, Ne.symm h]
  | cons e rest ih =>
    obtain ⟨a, b⟩ := e
    by_cases h1 : a = k
    · subst h1
      simp [GoMap.store, GoMap.lookup, Ne.symm h]
    · by_cases h2 : a = k'
      · subst h2
        simp [GoMap.store, GoMap.lookup, h]
      · simp [GoMap.store, GoMap.lookup, h1, h2, ih]

theorem GoMap.mem_keys_store {κ V : Type} [DecidableEq κ] (m : GoMap κ V) (k k' : κ) (v : V) :
    k' ∈ GoMap.keys (GoMap.store m k v) ↔ k' = k ∨ k' ∈ GoMap.keys m := by
  induction m with
  | nil => simp [GoMap.store, GoMap.keys]
  | cons e rest ih =>
    obtain ⟨a, b⟩ := e
    by_cases h1 : a = k
    · subst h1
      simp [GoMap.store, GoMap.keys]
    · have ih' : k' ∈ List.map Prod.fst (GoMap.store rest k v) ↔
          k' = k ∨ k' ∈ List.map Prod.fst rest := ih
      simp only [GoMap.store, GoMap.keys, h1, if_false, List.map_cons, List.mem_cons, ih']
      tauto

theorem GoMap.lookup_eq_none_iff {κ V : Type} [DecidableEq κ] (m : GoMap κ V) (k : κ) :
    GoMap.lookup m k = none ↔ k ∉ GoMap.keys m := by
  induction m with
  | nil => simp [GoMap.lookup, GoMap.keys]
  | cons e rest ih =>
    obtain ⟨a, b⟩ := e
    have ih' : GoMap.lookup rest k = none ↔ k ∉ List.map Prod.fst rest := ih
    by_cases h1 : a = k
    · simp [GoMap.lookup, GoMap.keys, h1]
    · simp only [GoMap.lookup, GoMap.keys, h1, if_false, List.map_cons, List.mem_cons, ih']
      constructor
      · intro h hk
        rcases hk with hk | hk
        · exact h1 hk.symm
        · exact h hk
      · intro h hk
        exact h (Or.inr hk)

theorem GoMap.nodup_keys_store {κ V : Type} [DecidableEq κ] (m : GoMap κ V) (k : κ) (v : V)
    (h : (GoMap.keys m).Nodup) : (GoMap.keys (GoMap.store m k v)).Nodup := by
  induction m with
  | nil => simp [GoMap.store, GoMap.keys]
  | cons e rest ih =>
    obtain ⟨a, b⟩ := e
    have hcons : a ∉ GoMap.keys rest ∧ (GoMap.keys rest).Nodup := by
      simpa [GoMap.keys] using h
    by_cases h1 : a = k
    · subst h1
      simpa [GoMap.store, GoMap.keys] using h
    · have hmem : a ∉ GoMap.keys (GoMap.store rest k v) := by
        rw [GoMap.mem_keys_store]
        rintro (hk | hk)
        · exact h1 hk
        · exact hcons.1 hk
      have hnd := ih hcons.2
      simp only [GoMap.store, h1, if_false]
      exact List.nodup_cons.mpr ⟨hmem, hnd⟩

/-! ## Lemmas on decimal strings -/

theorem digitChar_toNat (d : Nat) (h : d < 10) : (digitChar d).toNat = 48 + d := by
  interval_cases d <;> rfl

theorem decValue_snoc (cs : List Char) (c : Char) :
    decValue (cs ++ [c]) = decValue cs * 10 + (c.toNat - 48) := by
  simp [decValue, List.foldl_append]

theorem decValue_natDigits (fuel : Nat) : ∀ n, n < fuel → decValue (natDigits fuel n) = n := by
  induction fuel with
  | zero => intro n h; omega
  | succ fuel ih =>
    intro n h
    by_cases h10 : n < 10
    · simp [natDigits, h10, decValue, digitChar_toNat n h10]
    · have hlt : n / 10 < fuel := by omega
      have hmod : n % 10 < 10 := Nat.mod_lt _ (by decide)
      simp only [natDigits, h10, if_false, decValue_snoc, ih _ hlt, digitChar_toNat _ hmod]
      omega

theorem natDigits_digit (fuel : Nat) :
    ∀ n c, c ∈ natDigits fuel n → ∃ d, d < 10 ∧ c = digitChar d := by
  induction fuel with
  | zero => intro n c h; simp [natDigits] at h
  | succ fuel ih =>
    intro n c h
    by_cases h10 : n < 10
    · simp only [natDigits, h10, if_true, List.mem_singleton] at h
      exact ⟨n, h10, h⟩
    · simp only [natDigits, h10, if_false, List.mem_append, List.mem_singleton] at h
      rcases h with h | h
      · exact ih _ _ h
      · exact ⟨n % 10, Nat.mod_lt _ (by decide), h⟩

theorem natToDec_injective (a b : Nat) (h : natToDec a = natToDec b) : a = b := by
  have ha := decValue_natDigits (a + 1) a (Nat.lt_succ_self a)
  have hb := decValue_natDigits (b + 1) b (Nat.lt_succ_self b)
  unfold natToDec at h
  rw [h] at ha
  omega

theorem natToDec_toNat (n : Nat) (c : Char) (h : c ∈ natToDec n) :
    48 ≤ c.toNat ∧ c.toNat < 58 := by
  obtain ⟨d, hd, rfl⟩ := natDigits_digit _ _ _ h
  rw [digitChar_toNat d hd]
  omega

theorem natToDec_ne_nil (n : Nat) : natToDec n ≠ [] := by
  unfold natToDec
  by_cases h10 : n < 10
  · simp [natDigits, h10]
  · simp [natDigits, h10]

theorem itoaChars_toNat (i : Int) (c : Char) (h : c ∈ itoaChars i) :
    c.toNat = 45 ∨ (48 ≤ c.toNat ∧ c.toNat < 58) := by
  cases i with
  | ofNat n => exact Or.inr (natToDec_toNat n c h)
  | negSucc n =>
    simp only [itoaChars, List.mem_cons] at h
    rcases h with h | h
    · left; rw [h]; rfl
    · exact Or.inr (natToDec_toNat _ c h)

theorem itoaChars_injective (a b : Int) (h : itoaChars a = itoaChars b) : a = b := by
  have hdash : ∀ n m : Nat, natToDec n ≠ (Char.ofNat 45) :: natToDec m := by
    intro n m heq
    have hmem : Char.ofNat 45 ∈ natToDec n := by rw [heq]; exact List.mem_cons_self _ _
    have := natToDec_toNat n _ hmem
    have h45 : (Char.ofNat 45).toNat = 45 := rfl
    omega
  cases a with
  | ofNat n =>
    cases b with
    | ofNat m =>
      have := natToDec_injective n m h
      subst this
      rfl
    | negSucc m => exact absurd h (hdash n (m + 1))
  | negSucc n =>
    cases b with
    | ofNat m => exact absurd h.symm (hdash m (n + 1))
    | negSucc m =>
      simp only [itoaChars, List.cons.injEq, true_and] at h
      have := natToDec_injective _ _ h
      have hnm : n = m := by omega
      subst hnm
      rfl

theorem itoa_injective (a b : Int) (h : itoa a = itoa b) : a = b := by
  unfold itoa at h
  exact itoaChars_injective a b (congrArg String.data h)

theorem bar_not_mem_itoaChars (i : Int) : '|' ∉ itoaChars i := by
  intro h
  have := itoaChars_toNat i _ h
  have hbar : ('|' : Char).toNat = 124 := rfl
  omega

theorem append_bar_inj (a b c d : List Char) (hc : '|' ∉ c) (hd : '|' ∉ d)
    (h : a ++ '|' :: c = b ++ '|' :: d) : a = b ∧ c = d := by
  rcases List.append_eq_append_iff.mp h with ⟨a', hb, hcd⟩ | ⟨c', ha, hdc⟩
  · cases a' with
    | nil =>
      simp only [List.nil_append, List.cons.injEq, true_and] at hcd
      simp only [List.append_nil] at hb
      exact ⟨hb.symm, hcd⟩
    | cons x xs =>
      simp only [List.cons_append, List.cons.injEq] at hcd
      exfalso
      apply hc
      rw [hcd.2]
      simp
  · cases c' with
    | nil =>
      simp only [List.nil_append, List.cons.injEq, true_and] at hdc
      simp only [List.append_nil] at ha
      exact ⟨ha, hdc.symm⟩
    | cons x xs =>
      simp only [List.cons_append, List.cons.injEq] at hdc
      exfalso
      apply hd
      rw [hdc.2]
      simp

theorem compositeKey_data (h : AlarmHostInfo) :
    (compositeKey h).data = h.BkHostInnerip.data ++ '|' :: itoaChars h.BkCloudId := by
  simp [compositeKey, itoa]

theorem compositeKey_injective (h1 h2 : AlarmHostInfo) (h : compositeKey h1 = compositeKey h2) :
    h1.BkHostInnerip = h2.BkHostInnerip ∧ h1.BkCloudId = h2.BkCloudId := by
  have hd : (compositeKey h1).data = (compositeKey h2).data := by rw [h]
  rw [compositeKey_data, compositeKey_data] at hd
  obtain ⟨hip, hcloud⟩ :=
    append_bar_inj _ _ _ _ (bar_not_mem_itoaChars _) (bar_not_mem_itoaChars _) hd
  exact ⟨String.ext hip, itoaChars_injective _ _ hcloud⟩

theorem compositeKey_ne_itoa (h : AlarmHostInfo) (i : Int) : compositeKey h ≠ itoa i := by
  intro heq
  have hd : (compositeKey h).data = (itoa i).data := by rw [heq]
  rw [compositeKey_data] at hd
  have hmem : '|' ∈ (itoa i).data := by
    rw [← hd]
    simp
  exact bar_not_mem_itoaChars i hmem

theorem GoMap.keys_nil {κ V : Type} : GoMap.keys ([] : GoMap κ V) = [] := rfl

/-! ## Lemmas on the host index -/

theorem mem_keys_hostIndexStep (marshal : AlarmHostInfo → String) (acc : GoMap String String)
    (h : AlarmHostInfo) (k : String) :
    k ∈ GoMap.keys (hostIndexStep marshal acc h) ↔
      k ∈ GoMap.keys acc ∨ (h.BkHostInnerip ≠ "" ∧ k = compositeKey h) ∨
        (h.BkHostId > 0 ∧ k = itoa h.BkHostId) := by
  unfold hostIndexStep
  by_cases hip : h.BkHostInnerip = "" <;> by_cases hid : h.BkHostId > 0 <;>
    simp [hip, hid, GoMap.mem_keys_store] <;> tauto

theorem mem_keys_foldl_hostIndexStep (marshal : AlarmHostInfo → String)
    (hosts : List AlarmHostInfo) :
    ∀ (acc : GoMap String String) (k : String),
      k ∈ GoMap.keys (hosts.foldl (hostIndexStep marshal) acc) ↔
        k ∈ GoMap.keys acc ∨ (∃ h ∈ hosts, h.BkHostInnerip ≠ "" ∧ k = compositeKey h) ∨
          (∃ h ∈ hosts, h.BkHostId > 0 ∧ k = itoa h.BkHostId) := by
  induction hosts with
  | nil => intro acc k; simp
  | cons h rest ih =>
    intro acc k
    rw [List.foldl_cons, ih, mem_keys_hostIndexStep]
    simp only [List.mem_cons, exists_eq_or_imp]
    constructor
    · rintro ((h1 | h1 | h1) | h1 | h1)
      · exact Or.inl h1
      · exact Or.inr (Or.inl (Or.inl h1))
      · exact Or.inr (Or.inr (Or.inl h1))
      · exact Or.inr (Or.inl (Or.inr h1))
      · exact Or.inr (Or.inr (Or.inr h1))
    · rintro (h1 | (h1 | h1) | (h1 | h1))
      · exact Or.inl (Or.inl h1)
      · exact Or.inl (Or.inr (Or.inl h1))
      · exact Or.inr (Or.inl h1)
      · exact Or.inl (Or.inr (Or.inr h1))
      · exact Or.inr (Or.inr h1)

theorem nodup_keys_foldl_hostIndexStep (marshal : AlarmHostInfo → String)
    (hosts : List AlarmHostInfo) :
    ∀ acc : GoMap String String, (GoMap.keys acc).Nodup →
      (GoMap.keys (hosts.foldl (hostIndexStep marshal) acc)).Nodup := by
  induction hosts with
  | nil => intro acc h; simpa using h
  | cons h rest ih =>
    intro acc hacc
    rw [List.foldl_cons]
    apply ih
    unfold hostIndexStep
    by_cases hip : h.BkHostInnerip = "" <;> by_cases hid : h.BkHostId > 0 <;>
      simp only [hip, hid, ne_eq, not_true_eq_false, not_false_eq_true, if_true, if_false]
    · exact GoMap.nodup_keys_store _ _ _ hacc
    · exact hacc
    · exact GoMap.nodup_keys_store _ _ _ (GoMap.nodup_keys_store _ _ _ hacc)
    · exact GoMap.nodup_keys_store _ _ _ hacc

theorem hostIndexStep_skip (marshal : AlarmHostInfo → String) (acc : GoMap String String)
    (h : AlarmHostInfo) (hip : h.BkHostInnerip = "") (hid : h.BkHostId ≤ 0) :
    hostIndexStep marshal acc h = acc := by
  have hid' : ¬ h.BkHostId > 0 := by omega
  simp [hostIndexStep, hip, hid']

theorem lookup_hostIndexStep_other (marshal : AlarmHostInfo → String)
    (acc : GoMap String String) (h : AlarmHostInfo) (k : String)
    (h1 : h.BkHostInnerip ≠ "" → compositeKey h ≠ k) (h2 : h.BkHostId > 0 → itoa h.BkHostId ≠ k) :
    GoMap.lookup (hostIndexStep marshal acc h) k = GoMap.lookup acc k := by
  unfold hostIndexStep
  by_cases hip : h.BkHostInnerip = "" <;> by_cases hid : h.BkHostId > 0 <;>
    simp only [hip, hid, ne_eq, not_true_eq_false, not_false_eq_true, if_true, if_false]
  · exact GoMap.lookup_store_ne _ _ _ _ (Ne.symm (h2 hid))
  · rw [GoMap.lookup_store_ne _ _ _ _ (Ne.symm (h2 hid)),
      GoMap.lookup_store_ne _ _ _ _ (Ne.symm (h1 hip))]
  · exact GoMap.lookup_store_ne _ _ _ _ (Ne.symm (h1 hip))

theorem lookup_foldl_hostIndexStep_other (marshal : AlarmHostInfo → String)
    (post : List AlarmHostInfo) :
    ∀ (acc : GoMap String String) (k : String),
      (∀ h ∈ post, h.BkHostInnerip ≠ "" → compositeKey h ≠ k) →
      (∀ h ∈ post, h.BkHostId > 0 → itoa h.BkHostId ≠ k) →
      GoMap.lookup (post.foldl (hostIndexStep marshal) acc) k = GoMap.lookup acc k := by
  induction post with
  | nil => intro acc k _ _; rfl
  | cons h rest ih =>
    intro acc k h1 h2
    rw [List.foldl_cons, ih _ _ (fun x hx => h1 x (List.mem_cons_of_mem _ hx))
      (fun x hx => h2 x (List.mem_cons_of_mem _ hx))]
    exact lookup_hostIndexStep_other marshal acc h k (h1 h (List.mem_cons_self _ _))
      (h2 h (List.mem_cons_self _ _))

theorem lookup_hostIndexStep_self (marshal : AlarmHostInfo → String)
    (acc : GoMap String String) (h : AlarmHostInfo) :
    (h.BkHostInnerip ≠ "" →
      GoMap.lookup (hostIndexStep marshal acc h) (compositeKey h) = some (marshal h)) ∧
    (h.BkHostId > 0 →
      GoMap.lookup (hostIndexStep marshal acc h) (itoa h.BkHostId) = some (marshal h)) := by
  unfold hostIndexStep
  constructor
  · intro hip
    by_cases hid : h.BkHostId > 0
    · simp only [hip, hid, ne_eq, not_false_eq_true, if_true]
      rw [GoMap.lookup_store_ne _ _ _ _ (compositeKey_ne_itoa h _), GoMap.lookup_store_self]
    · simp only [hip, hid, ne_eq, not_false_eq_true, if_true, if_false]
      exact GoMap.lookup_store_self _ _ _
  · intro hid
    simp only [hid, if_true]
    exact GoMap.lookup_store_self _ _ _

/-! ## Lemmas on the ip-ownership index -/

theorem quotedCompositeKey_data (h : AlarmHostInfo) :
    (quotedCompositeKey h).data =
      dquoteChar :: (h.BkHostInnerip.data ++ '|' :: (itoaChars h.BkCloudId ++ [dquoteChar])) := by
  simp [quotedCompositeKey, itoa, dquote, String.singleton]

theorem quotedCompositeKey_injective (h1 h2 : AlarmHostInfo)
    (h : quotedCompositeKey h1 = quotedCompositeKey h2) :
    h1.BkHostInnerip = h2.BkHostInnerip ∧ h1.BkCloudId = h2.BkCloudId := by
  have hd : (quotedCompositeKey h1).data = (quotedCompositeKey h2).data := by rw [h]
  rw [quotedCompositeKey_data, quotedCompositeKey_data] at hd
  have hq : ('|' : Char) ≠ dquoteChar := by decide
  have hnot : ∀ i : Int, '|' ∉ itoaChars i ++ [dquoteChar] := by
    intro i hmem
    rcases List.mem_append.mp hmem with hmem | hmem
    · exact bar_not_mem_itoaChars i hmem
    · exact hq (List.mem_singleton.mp hmem)
  obtain ⟨hip, hcloud⟩ := append_bar_inj _ _ _ _ (hnot _) (hnot _) (List.cons.inj hd).2
  exact ⟨String.ext hip, itoaChars_injective _ _ (List.append_cancel_right hcloud)⟩

theorem ipIndexHas_recordHostIp (idx : GoMap String (GoMap String Unit)) (h : AlarmHostInfo)
    (ip k : String) :
    ipIndexHas (recordHostIp idx h) ip k = true ↔
      ipIndexHas idx ip k = true ∨
        (h.BkHostInnerip ≠ "" ∧ ip = h.BkHostInnerip ∧ k = quotedCompositeKey h) := by
  by_cases hip : h.BkHostInnerip = ""
  · simp [recordHostIp, hip]
  · by_cases hi : ip = h.BkHostInnerip
    · subst hi
      cases hl : GoMap.lookup idx h.BkHostInnerip with
      | none =>
        simp [recordHostIp, ipIndexHas, hip, hl, GoMap.lookup_store_self, GoMap.mem_keys_store,
          GoMap.keys_nil]
      | some inner =>
        simp [recordHostIp, ipIndexHas, hip, hl, GoMap.lookup_store_self, GoMap.mem_keys_store]
        tauto
    · cases hl : GoMap.lookup idx h.BkHostInnerip with
      | none =>
        simp [recordHostIp, ipIndexHas, hip, hl, hi, GoMap.lookup_store_ne _ _ _ _ hi]
      | some inner =>
        simp [recordHostIp, ipIndexHas, hip, hl, hi, GoMap.lookup_store_ne _ _ _ _ hi]

theorem ipIndexHas_recordHostIps (hosts : List AlarmHostInfo) :
    ∀ (idx : GoMap String (GoMap String Unit)) (ip k : String),
      ipIndexHas (recordHostIps idx hosts) ip k = true ↔
        ipIndexHas idx ip k = true ∨
          ∃ h ∈ hosts, h.BkHostInnerip ≠ "" ∧ ip = h.BkHostInnerip ∧ k = quotedCompositeKey h := by
  induction hosts with
  | nil => intro idx ip k; simp [recordHostIps]
  | cons h rest ih =>
    intro idx ip k
    have ih' := ih (recordHostIp idx h) ip k
    unfold recordHostIps at ih' ⊢
    rw [List.foldl_cons, ih', ipIndexHas_recordHostIp]
    simp only [List.mem_cons, exists_eq_or_imp]
    constructor
    · rintro ((h1 | h1) | h1)
      · exact Or.inl h1
      · exact Or.inr (Or.inl h1)
      · exact Or.inr (Or.inr h1)
    · rintro (h1 | h1 | h1)
      · exact Or.inl (Or.inl h1)
      · exact Or.inl (Or.inr h1)
      · exact Or.inr h1

theorem recordHostIps_filter (hosts : List AlarmHostInfo) :
    ∀ idx : GoMap String (GoMap String Unit),
      recordHostIps idx hosts =
        recordHostIps idx (hosts.filter fun h => decide (h.BkHostInnerip ≠ "")) := by
  induction hosts with
  | nil => intro idx; rfl
  | cons h rest ih =>
    intro idx
    by_cases hip : h.BkHostInnerip = ""
    · have hstep : recordHostIp idx h = idx := by simp [recordHostIp, hip]
      have ih' := ih idx
      unfold recordHostIps at ih' ⊢
      simp only [List.foldl_cons, hstep, List.filter_cons, hip, ne_eq, not_true_eq_false,
        decide_False, Bool.false_eq_true, if_false]
      exact ih'
    · have ih' := ih (recordHostIp idx h)
      unfold recordHostIps at ih' ⊢
      simp only [List.foldl_cons, List.filter_cons, hip, ne_eq, not_false_eq_true,
        decide_True, if_true]
      exact ih'

theorem RefreshByBiz_hostIpMap (marshal : AlarmHostInfo → String) (m : HostAndTopoCacheManager)
    (api : CmdbApi) (bkBizId : Int) (upd : PublishOutcomes) :
    (RefreshByBiz marshal m api bkBizId upd).1.hostIpMap =
      recordHostIps m.hostIpMap (fetchedHosts api bkBizId) := by
  unfold RefreshByBiz fetchedHosts
  cases hf : getHostAndTopoByBiz api bkBizId with
  | ok r => obtain ⟨hosts, topo⟩ := r; rfl
  | err e => simp [recordHostIps]
  | panic msg => simp [recordHostIps]


theorem fetchedHosts_of_ok (api : CmdbApi) (bkBizId : Int) (hosts : List AlarmHostInfo)
    (topo : SearchBizInstTopoData)
    (hfetch : getHostAndTopoByBiz api bkBizId = GoResult.ok (hosts, topo)) :
    fetchedHosts api bkBizId = hosts := by
  simp [fetchedHosts, hfetch]

theorem ipIndexHas_refreshSequence (marshal : AlarmHostInfo → String) (bkBizId : Int)
    (calls : List (CmdbApi × PublishOutcomes)) :
    ∀ (m : HostAndTopoCacheManager) (ip k : String),
      ipIndexHas (refreshSequence marshal m bkBizId calls).hostIpMap ip k = true ↔
        ipIndexHas m.hostIpMap ip k = true ∨
          ∃ call ∈ calls, ∃ h ∈ fetchedHosts call.1 bkBizId,
            h.BkHostInnerip ≠ "" ∧ ip = h.BkHostInnerip ∧ k = quotedCompositeKey h := by
  induction calls with
  | nil => intro m ip k; simp [refreshSequence]
  | cons call rest ih =>
    intro m ip k
    rw [refreshSequence, ih, RefreshByBiz_hostIpMap, ipIndexHas_recordHostIps]
    simp only [List.mem_cons, exists_eq_or_imp]
    constructor
    · rintro ((h1 | h1) | h1)
      · exact Or.inl h1
      · exact Or.inr (Or.inl h1)
      · exact Or.inr (Or.inr h1)
    · rintro (h1 | h1 | h1)
      · exact Or.inl (Or.inl h1)
      · exact Or.inl (Or.inr h1)
      · exact Or.inr h1

/-! ## Lemmas on the event loops -/

theorem mem_keys_relationStep {F : Type} (ops : Float64Ops F) (acc : GoMap Int Unit)
    (event : Event F) (b : Int) :
    b ∈ GoMap.keys (relationStep ops acc event) ↔
      b ∈ GoMap.keys acc ∨ ∃ f, event.getFloat64 "bk_biz_id" = some f ∧ ops.toInt f = b := by
  unfold relationStep
  cases hf : event.getFloat64 "bk_biz_id" with
  | none => simp
  | some f =>
    simp only [GoMap.mem_keys_store, Option.some.injEq, exists_eq_left']
    constructor
    · rintro (h | h)
      · exact Or.inr h.symm
      · exact Or.inl h
    · rintro (h | h)
      · exact Or.inr h
      · exact Or.inl h.symm

theorem mem_keys_foldl_relationStep {F : Type} (ops : Float64Ops F) (events : List (Event F)) :
    ∀ (acc : GoMap Int Unit) (b : Int),
      b ∈ GoMap.keys (events.foldl (relationStep ops) acc) ↔
        b ∈ GoMap.keys acc ∨
          ∃ e ∈ events, ∃ f, e.getFloat64 "bk_biz_id" = some f ∧ ops.toInt f = b := by
  induction events with
  | nil => intro acc b; simp
  | cons e rest ih =>
    intro acc b
    rw [List.foldl_cons, ih, mem_keys_relationStep]
    simp only [List.mem_cons, exists_eq_or_imp]
    constructor
    · rintro ((h1 | h1) | h1)
      · exact Or.inl h1
      · exact Or.inr (Or.inl h1)
      · exact Or.inr (Or.inr h1)
    · rintro (h1 | h1 | h1)
      · exact Or.inl (Or.inl h1)
      · exact Or.inl (Or.inr h1)
      · exact Or.inr h1

theorem nodup_keys_foldl_relationStep {F : Type} (ops : Float64Ops F)
    (events : List (Event F)) :
    ∀ acc : GoMap Int Unit, (GoMap.keys acc).Nodup →
      (GoMap.keys (events.foldl (relationStep ops) acc)).Nodup := by
  induction events with
  | nil => intro acc h; simpa using h
  | cons e rest ih =>
    intro acc hacc
    rw [List.foldl_cons]
    apply ih
    unfold relationStep
    cases e.getFloat64 "bk_biz_id" with
    | none => exact hacc
    | some f => exact GoMap.nodup_keys_store _ _ _ hacc

theorem eq_singleton_of_nodup_of_mem_iff (l : List Int) (u : Int) (hnd : l.Nodup)
    (hmem : ∀ b, b ∈ l ↔ b = u) : l = [u] := by
  cases l with
  | nil => exact absurd ((hmem u).mpr rfl) (List.not_mem_nil u)
  | cons a t =>
    have ha : a = u := (hmem a).mp (List.mem_cons_self _ _)
    subst ha
    cases t with
    | nil => rfl
    | cons c t' =>
      have hc : c = a := (hmem c).mp (List.mem_cons_of_mem _ (List.mem_cons_self _ _))
      subst hc
      simp at hnd

theorem UpdateByEvents_host_relation_refreshes {F : Type} (ops : Float64Ops F)
    (marshalTopo : Int → Option (EventValue F) → String → Option (EventValue F) → String)
    (unmarshal : String → Except GoError (Option AlarmHostInfo))
    (m : HostAndTopoCacheManager) (events : List (Event F))
    (hmget : Except GoError (List (Option String))) (upd : Option GoError)
    (hne : events ≠ []) :
    UpdateByEvents ops marshalTopo unmarshal m "host_relation" events hmget upd =
      { calls := [], refreshes := GoMap.keys (relationBizIds ops events),
        result := GoResult.ok () } := by
  have hlen : events.length ≠ 0 := by
    intro h
    exact hne (List.length_eq_zero.mp h)
  have h1 : ("host_relation" : String) ≠ "host" := by decide
  have h2 : ("host_relation" : String) ≠ "mainline_instance" := by decide
  simp [UpdateByEvents, hlen, h1, h2, refreshUnits]

/-! ## Lemmas on the global publication -/

theorem lookup_foldl_hostIpStep_none (inner : String → RangeOrder)
    (idx : GoMap String (GoMap String Unit)) (ip : String) (hnone : GoMap.lookup idx ip = none)
    (l : List String) :
    ∀ acc : GoMap String String,
      GoMap.lookup (l.foldl (hostIpStep inner idx) acc) ip = GoMap.lookup acc ip := by
  induction l with
  | nil => intro acc; rfl
  | cons x rest ih =>
    intro acc
    rw [List.foldl_cons, ih]
    unfold hostIpStep
    cases hx : GoMap.lookup idx x with
    | none => rfl
    | some mapping =>
      have hne : ip ≠ x := by
        intro heq
        rw [heq, hx] at hnone
        cases hnone
      exact GoMap.lookup_store_ne _ _ _ _ hne

theorem lookup_foldl_hostIpStep_some (inner : String → RangeOrder)
    (idx : GoMap String (GoMap String Unit)) (ip : String) (mapping : GoMap String Unit)
    (hsome : GoMap.lookup idx ip = some mapping) (l : List String) :
    ∀ acc : GoMap String String,
      GoMap.lookup (l.foldl (hostIpStep inner idx) acc) ip =
        if ip ∈ l then some (hostIpValue inner ip mapping) else GoMap.lookup acc ip := by
  induction l with
  | nil => intro acc; simp
  | cons x rest ih =>
    intro acc
    rw [List.foldl_cons, ih]
    by_cases hx : x = ip
    · subst hx
      simp [hostIpStep, hsome, GoMap.lookup_store_self]
    · have hne : ip ≠ x := fun h => hx h.symm
      have hstep : GoMap.lookup (hostIpStep inner idx acc x) ip = GoMap.lookup acc ip := by
        unfold hostIpStep
        cases GoMap.lookup idx x with
        | none => rfl
        | some other => exact GoMap.lookup_store_ne _ _ _ _ hne
      simp [hstep, hne]

theorem lookup_hostIpData (outer : RangeOrder) (inner : String → RangeOrder)
    (idx : GoMap String (GoMap String Unit)) (houter : outer.Legal) (ip : String) :
    GoMap.lookup (hostIpData outer inner idx) ip =
      (GoMap.lookup idx ip).map (hostIpValue inner ip) := by
  unfold hostIpData
  cases hl : GoMap.lookup idx ip with
  | none =>
    rw [lookup_foldl_hostIpStep_none inner idx ip hl]
    rfl
  | some mapping =>
    rw [lookup_foldl_hostIpStep_some inner idx ip mapping hl]
    have hmem : ip ∈ outer (GoMap.keys idx) := by
      rw [(houter (GoMap.keys idx)).mem_iff]
      by_contra hnot
      rw [(GoMap.lookup_eq_none_iff idx ip).mpr hnot] at hl
      cases hl
    simp [hmem]

theorem perm_eq_of_length_le_one (l1 l2 : List String) (h : l1.Perm l2) (hlen : l2.length ≤ 1) :
    l1 = l2 := by
  cases l2 with
  | nil => exact h.eq_nil
  | cons a t =>
    cases t with
    | nil => exact List.perm_singleton.mp h
    | cons b t' => simp at hlen

theorem legal_id : RangeOrder.Legal id := fun keys => List.Perm.refl keys

theorem legal_reverse : RangeOrder.Legal List.reverse := fun keys => List.reverse_perm keys

/-! ## Lemmas on the fetch -/

theorem moduleKey_injective (a b : Int) (h : moduleKey a = moduleKey b) : a = b := by
  unfold moduleKey at h
  have hd : ("module|" ++ itoa a).data = ("module|" ++ itoa b).data := by rw [h]
  simp only [String.data_append] at hd
  exact itoa_injective a b (String.ext (List.append_cancel_left hd))

theorem attachStep_fields (links : GoMap Int (List TopoLinkNode)) (host : AlarmHostInfo)
    (id : Int) :
    (attachStep links host id).BkModuleIds = host.BkModuleIds ∧
      (attachStep links host id).TopoLinks =
        (match GoMap.lookup links id with
          | none => host.TopoLinks
          | some topoLink => GoMap.store host.TopoLinks (moduleKey id) topoLink) := by
  unfold attachStep
  cases GoMap.lookup links id <;> exact ⟨rfl, rfl⟩

theorem foldl_attachStep_moduleIds (links : GoMap Int (List TopoLinkNode)) (ids : List Int) :
    ∀ host : AlarmHostInfo,
      (ids.foldl (attachStep links) host).BkModuleIds = host.BkModuleIds := by
  induction ids with
  | nil => intro host; rfl
  | cons id rest ih =>
    intro host
    rw [List.foldl_cons, ih, (attachStep_fields links host id).1]

theorem lookup_foldl_attachStep (links : GoMap Int (List TopoLinkNode)) (ids : List Int) :
    ∀ (host : AlarmHostInfo) (k : String) (v : List TopoLinkNode),
      GoMap.lookup (ids.foldl (attachStep links) host).TopoLinks k = some v ↔
        (∃ id ∈ ids, k = moduleKey id ∧ GoMap.lookup links id = some v) ∨
          (GoMap.lookup host.TopoLinks k = some v ∧
            ∀ id ∈ ids, k = moduleKey id → GoMap.lookup links id = none) := by
  induction ids with
  | nil => intro host k v; simp
  | cons id rest ih =>
    intro host k v
    rw [List.foldl_cons, ih, (attachStep_fields links host id).2]
    simp only [List.mem_cons, exists_eq_or_imp, forall_eq_or_imp]
    cases hl : GoMap.lookup links id with
    | none =>
      simp only [reduceCtorEq, and_false, false_or, implies_true, true_and]
    | some l =>
      by_cases hk : k = moduleKey id
      · subst hk
        simp only [GoMap.lookup_store_self, Option.some.injEq, true_and, reduceCtorEq,
          forall_const, false_and, and_false, or_false]
        constructor
        · rintro (h1 | h1)
          · exact Or.inr h1
          · exact Or.inl h1.1
        · rintro (h1 | h1)
          · by_cases hex : ∃ id' ∈ rest, moduleKey id = moduleKey id' ∧
                GoMap.lookup links id' = some v
            · exact Or.inl hex
            · right
              refine ⟨h1, ?_⟩
              intro id' hmem hkey
              have := moduleKey_injective _ _ hkey
              subst this
              exfalso
              exact hex ⟨id, hmem, rfl, by rw [hl, h1]⟩
          · exact Or.inl h1
      · simp only [hk, false_and, false_or, GoMap.lookup_store_ne _ _ _ _ hk, false_implies,
          true_and]

theorem lookup_attachTopoLinks (links : GoMap Int (List TopoLinkNode)) (host : AlarmHostInfo)
    (hempty : host.TopoLinks = []) (k : String) (v : List TopoLinkNode) :
    GoMap.lookup (attachTopoLinks links host).TopoLinks k = some v ↔
      ∃ id ∈ goRange (attachTopoLinks links host).BkModuleIds,
        k = moduleKey id ∧ GoMap.lookup links id = some v := by
  unfold attachTopoLinks
  rw [lookup_foldl_attachStep, foldl_attachStep_moduleIds, hempty]
  simp [GoMap.lookup]

theorem normalizer_topoLinks (info : ListBizHostsTopoDataInfo) (host : AlarmHostInfo)
    (h : NewAlarmHostInfoByListBizHostsTopoDataInfo info = GoResult.ok host) :
    host.TopoLinks = [] := by
  unfold NewAlarmHostInfoByListBizHostsTopoDataInfo at h
  simp only at h
  split at h
  · cases hs : info.Host.SrvStatus with
    | none => simp [hs, deref, GoResult.bind] at h
    | some s =>
      simp only [hs, deref, GoResult.bind, GoResult.ok.injEq] at h
      rw [← h]
  · cases hb : info.Host.BkState with
    | none =>
      simp only [hb, GoResult.bind, GoResult.ok.injEq] at h
      rw [← h]
    | some s =>
      simp only [hb, GoResult.bind, GoResult.ok.injEq] at h
      rw [← h]

theorem decodePage_topoLinks (bkBizID : Int) (raws : List ListBizHostsTopoDataInfo) :
    ∀ (acc hosts : List AlarmHostInfo), (∀ h ∈ acc, h.TopoLinks = []) →
      decodePage bkBizID acc raws = GoResult.ok hosts → ∀ h ∈ hosts, h.TopoLinks = [] := by
  induction raws with
  | nil =>
    intro acc hosts hacc hok
    simp only [decodePage, GoResult.ok.injEq] at hok
    rw [← hok]
    exact hacc
  | cons raw rest ih =>
    intro acc hosts hacc hok
    unfold decodePage at hok
    cases hn : NewAlarmHostInfoByListBizHostsTopoDataInfo raw with
    | ok host =>
      simp only [hn, GoResult.bind] at hok
      apply ih _ hosts _ hok
      intro h hmem
      rcases List.mem_append.mp hmem with hmem | hmem
      · exact hacc h hmem
      · rw [List.mem_singleton.mp hmem]
        exact normalizer_topoLinks raw host hn
    | err e => simp [hn, GoResult.bind] at hok
    | panic msg => simp [hn, GoResult.bind] at hok

theorem decodePages_topoLinks (bkBizID : Int)
    (pages : List (Except GoError (List ListBizHostsTopoDataInfo))) :
    ∀ (acc hosts : List AlarmHostInfo), (∀ h ∈ acc, h.TopoLinks = []) →
      decodePages bkBizID acc pages = GoResult.ok hosts → ∀ h ∈ hosts, h.TopoLinks = [] := by
  induction pages with
  | nil =>
    intro acc hosts hacc hok
    simp only [decodePages, GoResult.ok.injEq] at hok
    rw [← hok]
    exact hacc
  | cons page rest ih =>
    intro acc hosts hacc hok
    cases page with
    | error e => simp [decodePages] at hok
    | ok info =>
      unfold decodePages at hok
      cases hp : decodePage bkBizID acc info with
      | ok hosts1 =>
        simp only [hp, GoResult.bind] at hok
        exact ih hosts1 hosts (decodePage_topoLinks bkBizID info acc hosts1 hacc hp) hok
      | err e => simp [hp, GoResult.bind] at hok
      | panic msg => simp [hp, GoResult.bind] at hok

theorem getHostAndTopoByBiz_ok (api : CmdbApi) (bkBizID : Int) (hosts : List AlarmHostInfo)
    (topo : SearchBizInstTopoData)
    (hfetch : getHostAndTopoByBiz api bkBizID = GoResult.ok (hosts, topo)) :
    ∃ hosts0 : List AlarmHostInfo, (∀ h ∈ hosts0, h.TopoLinks = []) ∧
      hosts = hosts0.map (attachTopoLinks (api.ToTopoLinks topo)) ∧
      ∀ toTopoLinks : SearchBizInstTopoData → GoMap Int (List TopoLinkNode),
        getHostAndTopoByBiz { api with ToTopoLinks := toTopoLinks } bkBizID =
          GoResult.ok (hosts0.map (attachTopoLinks (toTopoLinks topo)), topo) := by
  unfold getHostAndTopoByBiz at hfetch ⊢
  cases h1 : api.GetCmdbApi with
  | some e => simp [h1] at hfetch
  | none =>
    cases h2 : api.ListBizHostsTopo with
    | error e => simp [h1, h2] at hfetch
    | ok results =>
      cases h3 : decodePages bkBizID [] results with
      | err e => simp [h1, h2, h3, GoResult.bind] at hfetch
      | panic msg => simp [h1, h2, h3, GoResult.bind] at hfetch
      | ok hosts1 =>
        cases h4 : api.SearchCloudArea with
        | error e => simp [h1, h2, h3, h4, GoResult.bind] at hfetch
        | ok cloudAreas =>
          cases h5 : api.SearchBizInstTopo with
          | error e => simp [h1, h2, h3, h4, h5, GoResult.bind] at hfetch
          | ok data =>
            cases h6 : api.GetBizInternalModule with
            | error e => simp [h1, h2, h3, h4, h5, h6, GoResult.bind] at hfetch
            | ok internalModule =>
              cases data with
              | nil => simp [h1, h2, h3, h4, h5, h6, GoResult.bind] at hfetch
              | cons root rest =>
                simp only [h1, h2, h3, h4, h5, h6, GoResult.bind, GoResult.ok.injEq,
                  Prod.mk.injEq] at hfetch
                obtain ⟨hhosts, htopo⟩ := hfetch
                subst htopo
                refine ⟨_, ?_, hhosts.symm, ?_⟩
                · intro h hmem
                  obtain ⟨h0, hmem0, rfl⟩ := List.mem_map.mp hmem
                  have := decodePages_topoLinks bkBizID results [] hosts1
                    (fun _ hx => absurd hx (List.not_mem_nil _)) h3 h0 hmem0
                  simpa [fillCloudName] using this
                · intro toTopoLinks
                  simp only [h1, h2, h3, h4, h5, h6, GoResult.bind]

/-! ## Lemmas on the normalizer -/

theorem splitChars_ne_nil (sep : Char) (cs : List Char) : splitChars sep cs ≠ [] := by
  cases cs with
  | nil => simp [splitChars]
  | cons c rest =>
    unfold splitChars
    by_cases hc : c = sep
    · simp [hc]
    · simp only [hc, if_false]
      cases splitChars sep rest <;> simp

theorem sep_not_mem_splitChars (sep : Char) (cs : List Char) :
    ∀ w ∈ splitChars sep cs, sep ∉ w := by
  induction cs with
  | nil => intro w hw; simp [splitChars] at hw; simp [hw]
  | cons c rest ih =>
    intro w hw
    unfold splitChars at hw
    by_cases hc : c = sep
    · simp only [hc, if_true, List.mem_cons] at hw
      rcases hw with hw | hw
      · simp [hw]
      · exact ih w hw
    · simp only [hc, if_false] at hw
      cases hs : splitChars sep rest with
      | nil => exact absurd hs (splitChars_ne_nil sep rest)
      | cons w0 ws =>
        rw [hs] at hw ih
        simp only [List.mem_cons] at hw
        rcases hw with hw | hw
        · rw [hw]
          intro hmem
          rcases List.mem_cons.mp hmem with hmem | hmem
          · exact hc hmem.symm
          · exact ih w0 (List.mem_cons_self _ _) hmem
        · exact ih w (List.mem_cons_of_mem _ hw)

theorem stringsJoin_splitChars (cs : List Char) :
    (stringsJoin ((splitChars ',' cs).map String.mk) ",").data = cs := by
  induction cs with
  | nil => simp [splitChars, stringsJoin]
  | cons c rest ih =>
    unfold splitChars
    cases hs : splitChars ',' rest with
    | nil => exact absurd hs (splitChars_ne_nil ',' rest)
    | cons w ws =>
      rw [hs] at ih
      by_cases hc : c = ','
      · subst hc
        simp only [if_true, List.map_cons, stringsJoin, String.data_append]
        simp only [List.map_cons] at ih
        rw [ih]
        rfl
      · simp only [hc, if_false, List.map_cons]
        cases ws with
        | nil =>
          simp only [List.map_nil, stringsJoin] at ih ⊢
          simp only [ih]
        | cons w2 ws2 =>
          simp only [List.map_cons, stringsJoin, String.data_append] at ih ⊢
          rw [← ih]
          simp

theorem splitOperator_spec (raw : String) :
    (raw = "" → splitOperator raw = some []) ∧
      (raw ≠ "" →
        splitOperator raw = some (stringsSplit raw ',') ∧ stringsSplit raw ',' ≠ [] ∧
          stringsJoin (stringsSplit raw ',') "," = raw ∧
          ∀ part ∈ stringsSplit raw ',', ',' ∉ part.data) := by
  constructor
  · intro h
    simp [splitOperator, h]
  · intro h
    refine ⟨by simp [splitOperator, h], ?_, ?_, ?_⟩
    · intro hnil
      unfold stringsSplit at hnil
      exact splitChars_ne_nil ',' raw.data (List.map_eq_nil_iff.mp hnil)
    · exact String.ext (stringsJoin_splitChars raw.data)
    · intro part hpart
      unfold stringsSplit at hpart
      obtain ⟨w, hw, rfl⟩ := List.mem_map.mp hpart
      exact sep_not_mem_splitChars ',' raw.data w hw

theorem normalizer_ok (info : ListBizHostsTopoDataInfo) :
    ∃ host, NewAlarmHostInfoByListBizHostsTopoDataInfo info = GoResult.ok host ∧
      host.Operator = splitOperator info.Host.Operator ∧
      host.BkBakOperator = splitOperator info.Host.BkBakOperator := by
  unfold NewAlarmHostInfoByListBizHostsTopoDataInfo
  cases hs : info.Host.SrvStatus with
  | none =>
    cases hb : info.Host.BkState with
    | none => exact ⟨_, rfl, rfl, rfl⟩
    | some b => exact ⟨_, rfl, rfl, rfl⟩
  | some s =>
    by_cases hempty : s = ""
    · subst hempty
      cases hb : info.Host.BkState with
      | none => exact ⟨_, rfl, rfl, rfl⟩
      | some b => exact ⟨_, rfl, rfl, rfl⟩
    · simp only [hempty, ne_eq, not_false_eq_true, if_true, deref, GoResult.bind]
      exact ⟨_, rfl, rfl, rfl⟩

/-! ## C1: dual indexing -/

/-- C1 (amended): in the host index built by `refreshHostCache`, a host with a non-empty inner
IP and a positive host id after which no host of the list has the same inner IP and cloud id
nor the same host id has one payload, its own serialization, under both its composite key and
the decimal string of its host id. -/
theorem hostIndex_dual_payload (marshal : AlarmHostInfo → String)
    (pre post : List AlarmHostInfo) (h : AlarmHostInfo)
    (hip : h.BkHostInnerip ≠ "") (hid : h.BkHostId > 0)
    (hlast : ∀ x ∈ post,
      ¬ (x.BkHostInnerip = h.BkHostInnerip ∧ x.BkCloudId = h.BkCloudId) ∧
        x.BkHostId ≠ h.BkHostId) :
    GoMap.lookup (hostIndex marshal (pre ++ h :: post)) (compositeKey h) = some (marshal h) ∧
      GoMap.lookup (hostIndex marshal (pre ++ h :: post)) (itoa h.BkHostId)
        = some (marshal h) := by
  have hfold : hostIndex marshal (pre ++ h :: post) =
      post.foldl (hostIndexStep marshal)
        (hostIndexStep marshal (pre.foldl (hostIndexStep marshal) []) h) := by
    simp [hostIndex, List.foldl_append]
  rw [hfold]
  constructor
  · rw [lookup_foldl_hostIndexStep_other]
    · exact (lookup_hostIndexStep_self marshal _ h).1 hip
    · intro x hx _ heq
      exact (hlast x hx).1 (compositeKey_injective x h heq)
    · intro x _ _ heq
      exact compositeKey_ne_itoa h _ heq.symm
  · rw [lookup_foldl_hostIndexStep_other]
    · exact (lookup_hostIndexStep_self marshal _ h).2 hid
    · intro x _ _ heq
      exact compositeKey_ne_itoa x _ heq
    · intro x hx _ heq
      exact (hlast x hx).2 (itoa_injective _ _ heq)

set_option maxRecDepth 100000 in
/-- C1, witness: host 1 at `10.0.0.1|0` followed by host 2 at `10.0.0.2|0`. -/
theorem hostIndex_dual_payload_witness :
    GoMap.lookup (hostIndex jsonMarshal [sampleHost "10.0.0.1" 0 1, sampleHost "10.0.0.2" 0 2])
        (compositeKey (sampleHost "10.0.0.1" 0 1))
          = some (jsonMarshal (sampleHost "10.0.0.1" 0 1)) ∧
      GoMap.lookup (hostIndex jsonMarshal [sampleHost "10.0.0.1" 0 1, sampleHost "10.0.0.2" 0 2])
        (itoa (sampleHost "10.0.0.1" 0 1).BkHostId)
          = some (jsonMarshal (sampleHost "10.0.0.1" 0 1)) :=
  hostIndex_dual_payload jsonMarshal [] [sampleHost "10.0.0.2" 0 2] (sampleHost "10.0.0.1" 0 1)
    (by decide) (by decide) (by decide)

set_option maxRecDepth 100000 in
/-- C1, counterexample: hosts 1 and 2 both at inner IP `10.0.0.1` in cloud region 0. The
composite key `10.0.0.1|0` ends with the payload of host 2, the key `1` keeps the payload of
host 1, so for host 1 the two values differ. -/
theorem hostIndex_dual_payload_counterexample :
    ¬ (∀ h ∈ [sampleHost "10.0.0.1" 0 1, sampleHost "10.0.0.1" 0 2],
        h.BkHostInnerip ≠ "" → h.BkHostId > 0 →
          GoMap.lookup
              (hostIndex jsonMarshal [sampleHost "10.0.0.1" 0 1, sampleHost "10.0.0.1" 0 2])
              (compositeKey h) =
            GoMap.lookup
              (hostIndex jsonMarshal [sampleHost "10.0.0.1" 0 1, sampleHost "10.0.0.1" 0 2])
              (itoa h.BkHostId)) := by
  intro hall
  have h1 := hall (sampleHost "10.0.0.1" 0 1) (List.mem_cons_self _ _) (by decide) (by decide)
  revert h1
  decide

/-! ## C4: key set of the host index -/

/-- C4: the map `refreshHostCache` hands to `UpdateHashMapCache` is the host index, and its
key set is exactly the composite keys of the hosts with a non-empty inner IP together with the
decimal host ids of the hosts with a positive host id; no key occurs twice, and a host with an
empty inner IP and a host id at most 0 changes nothing. -/
theorem refreshHostCache_key_set (marshal : AlarmHostInfo → String)
    (m : HostAndTopoCacheManager) (upd : Option GoError) :
    (refreshHostCache marshal m upd).1 =
        [BaseCall.updateHashMapCache (m.base.GetCacheKey hostCacheKey)
          (hostIndex marshal m.hosts)] ∧
      (∀ k, k ∈ GoMap.keys (hostIndex marshal m.hosts) ↔
        (∃ h ∈ m.hosts, h.BkHostInnerip ≠ "" ∧ k = compositeKey h) ∨
          (∃ h ∈ m.hosts, h.BkHostId > 0 ∧ k = itoa h.BkHostId)) ∧
      (GoMap.keys (hostIndex marshal m.hosts)).Nodup ∧
      (∀ pre post h, m.hosts = pre ++ h :: post → h.BkHostInnerip = "" → h.BkHostId ≤ 0 →
        hostIndex marshal m.hosts = hostIndex marshal (pre ++ post)) := by
  refine ⟨rfl, ?_, ?_, ?_⟩
  · intro k
    have := mem_keys_foldl_hostIndexStep marshal m.hosts [] k
    simpa [hostIndex, GoMap.keys_nil] using this
  · exact nodup_keys_foldl_hostIndexStep marshal m.hosts [] (by simp [GoMap.keys_nil])
  · intro pre post h hsplit hip hid
    rw [hsplit]
    simp [hostIndex, List.foldl_append, hostIndexStep_skip marshal _ h hip hid]

/-! ## C2: errors of `RefreshByBiz` -/

/-- C2: `RefreshByBiz` returns an error exactly when `getHostAndTopoByBiz` returns one; in that
case the manager (hosts, topology, ip-ownership index) is what it was and no call was made;
when the fetch succeeds the fetched snapshot is installed and `RefreshByBiz` returns nil
whatever `UpdateHashMapCache` returns to the three publication sub-tasks; a panic of the fetch
is not an error return, it goes on through `RefreshByBiz` with the manager untouched. -/
theorem RefreshByBiz_error_iff_fetch_fails (marshal : AlarmHostInfo → String)
    (m : HostAndTopoCacheManager) (api : CmdbApi) (bkBizId : Int) (upd : PublishOutcomes) :
    ((∃ e, (RefreshByBiz marshal m api bkBizId upd).2.2 = GoResult.err e) ↔
        ∃ e, getHostAndTopoByBiz api bkBizId = GoResult.err e) ∧
      (∀ e, getHostAndTopoByBiz api bkBizId = GoResult.err e →
        (RefreshByBiz marshal m api bkBizId upd).2.2
            = GoResult.err (errorsWrap e "get host by biz failed") ∧
          (RefreshByBiz marshal m api bkBizId upd).1 = m ∧
          (RefreshByBiz marshal m api bkBizId upd).1.hosts = m.hosts ∧
          (RefreshByBiz marshal m api bkBizId upd).1.topo = m.topo ∧
          (RefreshByBiz marshal m api bkBizId upd).1.hostIpMap = m.hostIpMap ∧
          (RefreshByBiz marshal m api bkBizId upd).2.1 = []) ∧
      (∀ hosts topo, getHostAndTopoByBiz api bkBizId = GoResult.ok (hosts, topo) →
        (RefreshByBiz marshal m api bkBizId upd).2.2 = GoResult.ok () ∧
          (RefreshByBiz marshal m api bkBizId upd).1.hosts = hosts ∧
          (RefreshByBiz marshal m api bkBizId upd).1.topo = some topo) ∧
      (∀ msg, getHostAndTopoByBiz api bkBizId = GoResult.panic msg →
        (RefreshByBiz marshal m api bkBizId upd).2.2 = GoResult.panic msg ∧
          (RefreshByBiz marshal m api bkBizId upd).1 = m) := by
  refine ⟨?_, ?_, ?_, ?_⟩
  · unfold RefreshByBiz
    cases hf : getHostAndTopoByBiz api bkBizId with
    | ok r => obtain ⟨hosts, topo⟩ := r; simp
    | err e => simp
    | panic msg => simp
  · intro e hf
    simp [RefreshByBiz, hf]
  · intro hosts topo hf
    simp [RefreshByBiz, hf]
  · intro msg hf
    simp [RefreshByBiz, hf]

/-! ## C5: the ip-ownership merge -/

/-- C5: after `RefreshByBiz` over a fetched host list, the entry of the inner IP of every
fetched host with a non-empty inner IP holds that host's composite key (in double quotes, the
form in which the index keeps it); hosts with the same inner IP and different cloud ids have
different keys; and the index is the one obtained from the hosts with a non-empty inner IP
alone, hosts with an empty inner IP adding nothing. -/
theorem RefreshByBiz_ip_ownership (marshal : AlarmHostInfo → String)
    (m : HostAndTopoCacheManager) (api : CmdbApi) (bkBizId : Int) (upd : PublishOutcomes)
    (hosts : List AlarmHostInfo) (topo : SearchBizInstTopoData)
    (hfetch : getHostAndTopoByBiz api bkBizId = GoResult.ok (hosts, topo)) :
    (∀ h ∈ hosts, h.BkHostInnerip ≠ "" →
        ipIndexHas (RefreshByBiz marshal m api bkBizId upd).1.hostIpMap h.BkHostInnerip
          (quotedCompositeKey h) = true) ∧
      (∀ h : AlarmHostInfo, quotedCompositeKey h = dquote ++ compositeKey h ++ dquote) ∧
      (∀ h1 h2 : AlarmHostInfo, h1.BkHostInnerip = h2.BkHostInnerip →
        h1.BkCloudId ≠ h2.BkCloudId →
          quotedCompositeKey h1 ≠ quotedCompositeKey h2 ∧ compositeKey h1 ≠ compositeKey h2) ∧
      (RefreshByBiz marshal m api bkBizId upd).1.hostIpMap =
        recordHostIps m.hostIpMap (hosts.filter fun h => decide (h.BkHostInnerip ≠ "")) ∧
      (∀ ip k, ipIndexHas (RefreshByBiz marshal m api bkBizId upd).1.hostIpMap ip k = true →
        ipIndexHas m.hostIpMap ip k = true ∨
          ∃ h ∈ hosts, h.BkHostInnerip ≠ "" ∧ ip = h.BkHostInnerip ∧
            k = quotedCompositeKey h) := by
  have hmap := RefreshByBiz_hostIpMap marshal m api bkBizId upd
  rw [fetchedHosts_of_ok api bkBizId hosts topo hfetch] at hmap
  refine ⟨?_, ?_, ?_, ?_, ?_⟩
  · intro h hmem hip
    rw [hmap, ipIndexHas_recordHostIps]
    exact Or.inr ⟨h, hmem, hip, rfl, rfl⟩
  · intro h
    simp [quotedCompositeKey, compositeKey, String.append_assoc]
  · intro h1 h2 _ hcloud
    exact ⟨fun heq => hcloud (quotedCompositeKey_injective h1 h2 heq).2,
      fun heq => hcloud (compositeKey_injective h1 h2 heq).2⟩
  · rw [hmap]
    exact recordHostIps_filter hosts m.hostIpMap
  · intro ip k hhas
    rw [hmap, ipIndexHas_recordHostIps] at hhas
    exact hhas

/-- C5, witness: two hosts at inner IP `10.0.0.1`, in cloud regions 0 and 1. -/
theorem RefreshByBiz_ip_ownership_witness :
    getHostAndTopoByBiz
        (sampleApi [sampleRaw "10.0.0.1" 0 1 [], sampleRaw "10.0.0.1" 1 2 []] []) 5
        = GoResult.ok ([sampleHost "10.0.0.1" 0 1, sampleHost "10.0.0.1" 1 2], sampleRoot) ∧
      ipIndexHas
          (RefreshByBiz jsonMarshal sampleManager
            (sampleApi [sampleRaw "10.0.0.1" 0 1 [], sampleRaw "10.0.0.1" 1 2 []] []) 5
            publishOk).1.hostIpMap
          "10.0.0.1" (quotedCompositeKey (sampleHost "10.0.0.1" 0 1)) = true ∧
      ipIndexHas
          (RefreshByBiz jsonMarshal sampleManager
            (sampleApi [sampleRaw "10.0.0.1" 0 1 [], sampleRaw "10.0.0.1" 1 2 []] []) 5
            publishOk).1.hostIpMap
          "10.0.0.1" (quotedCompositeKey (sampleHost "10.0.0.1" 1 2)) = true ∧
      quotedCompositeKey (sampleHost "10.0.0.1" 0 1)
        ≠ quotedCompositeKey (sampleHost "10.0.0.1" 1 2) :=
  have hthm :=
    RefreshByBiz_ip_ownership jsonMarshal sampleManager
      (sampleApi [sampleRaw "10.0.0.1" 0 1 [], sampleRaw "10.0.0.1" 1 2 []] []) 5 publishOk
      [sampleHost "10.0.0.1" 0 1, sampleHost "10.0.0.1" 1 2] sampleRoot rfl
  ⟨rfl,
    hthm.1 (sampleHost "10.0.0.1" 0 1) (List.mem_cons_self _ _) (by decide),
    hthm.1 (sampleHost "10.0.0.1" 1 2) (List.mem_cons_of_mem _ (List.mem_cons_self _ _))
      (by decide),
    (hthm.2.2.1 (sampleHost "10.0.0.1" 0 1) (sampleHost "10.0.0.1" 1 2) rfl (by decide)).1⟩

/-! ## C6: what the ip-ownership index holds after several refreshes -/

/-- C6 (amended): after a sequence of `RefreshByBiz` calls for one business unit with no
`Reset` in between, the index holds a key in the entry of an IP exactly when it held it before
the first call or the key is that of a host with this non-empty inner IP in the host list
fetched by one of the calls, not necessarily the last one: a refresh adds keys and removes
none. -/
theorem refreshSequence_ip_index (marshal : AlarmHostInfo → String)
    (m : HostAndTopoCacheManager) (bkBizId : Int) (calls : List (CmdbApi × PublishOutcomes))
    (ip k : String) :
    ipIndexHas (refreshSequence marshal m bkBizId calls).hostIpMap ip k = true ↔
      ipIndexHas m.hostIpMap ip k = true ∨
        ∃ call ∈ calls, ∃ h ∈ fetchedHosts call.1 bkBizId,
          h.BkHostInnerip ≠ "" ∧ ip = h.BkHostInnerip ∧ k = quotedCompositeKey h :=
  ipIndexHas_refreshSequence marshal bkBizId calls m ip k

/-- C6, counterexample: a new manager refreshes unit 5 twice with success; the first fetch
returns one host at `10.0.0.1|0`, the second returns no host. The key of the host is still in
the index although the most recent host list is empty. -/
theorem refreshSequence_ip_index_counterexample :
    ¬ (fetchSucceeds (sampleApi [sampleRaw "10.0.0.1" 0 1 []] []) 5 = true →
        fetchSucceeds (sampleApi [] []) 5 = true →
        ∀ ip k,
          ipIndexHas
              (refreshSequence jsonMarshal sampleManager 5
                [(sampleApi [sampleRaw "10.0.0.1" 0 1 []] [], publishOk),
                  (sampleApi [] [], publishOk)]).hostIpMap ip k = true →
            ∃ h ∈ fetchedHosts (sampleApi [] []) 5, k = quotedCompositeKey h) := by
  intro hclaim
  obtain ⟨h, hmem, _⟩ :=
    hclaim rfl rfl "10.0.0.1" (quotedCompositeKey (sampleHost "10.0.0.1" 0 1)) (by decide)
  have hnil : fetchedHosts (sampleApi [] []) 5 = [] := rfl
  rw [hnil] at hmem
  cases hmem

/-! ## C7: `Reset` -/

/-- C7 (amended): `Reset` leaves the ip-ownership index empty, leaves the hosts list, the
topology tree and the base manager value as they were, and makes one call, the `Reset` of the
embedded base manager: no store write, delete or expire of its own. -/
theorem Reset_clears_ip_index (m : HostAndTopoCacheManager) :
    (Reset m).1.hostIpMap = [] ∧
      (∀ ip k, ipIndexHas (Reset m).1.hostIpMap ip k = false) ∧
      (Reset m).1.hosts = m.hosts ∧
      (Reset m).1.topo = m.topo ∧
      (Reset m).1.base = m.base ∧
      (Reset m).2 = [BaseCall.reset] :=
  ⟨rfl, fun _ _ => rfl, rfl, rfl, rfl, rfl⟩

/-- C7, counterexample: the manager that has refreshed unit 5 with one host; after `Reset`
its hosts list still holds that host and its topology is still the fetched tree. -/
theorem Reset_clears_ip_index_counterexample :
    ¬ ((Reset (RefreshByBiz jsonMarshal sampleManager
          (sampleApi [sampleRaw "10.0.0.1" 0 1 []] []) 5 publishOk).1).1.hostIpMap = [] ∧
        (Reset (RefreshByBiz jsonMarshal sampleManager
          (sampleApi [sampleRaw "10.0.0.1" 0 1 []] []) 5 publishOk).1).1.hosts = [] ∧
        (Reset (RefreshByBiz jsonMarshal sampleManager
          (sampleApi [sampleRaw "10.0.0.1" 0 1 []] []) 5 publishOk).1).1.topo = none) := by
  rintro ⟨_, hhosts, _⟩
  have hkept : (Reset (RefreshByBiz jsonMarshal sampleManager
      (sampleApi [sampleRaw "10.0.0.1" 0 1 []] []) 5 publishOk).1).1.hosts
        = [sampleHost "10.0.0.1" 0 1] := rfl
  rw [hkept] at hhosts
  exact List.cons_ne_nil _ _ hhosts

/-! ## C3: the `host_relation` fallback -/

/-- C3: for a non-empty batch of `host_relation` events, `UpdateByEvents` starts `RefreshByBiz`
once for every distinct `int(bk_biz_id)` of an event whose `bk_biz_id` is a `float64` and for
no other unit, the other events being skipped; a batch whose events all carry the unit `u`
starts exactly one refresh, that of `u`. -/
theorem UpdateByEvents_host_relation {F : Type} (ops : Float64Ops F)
    (marshalTopo : Int → Option (EventValue F) → String → Option (EventValue F) → String)
    (unmarshal : String → Except GoError (Option AlarmHostInfo))
    (m : HostAndTopoCacheManager) (events : List (Event F))
    (hmget : Except GoError (List (Option String))) (upd : Option GoError)
    (hne : events ≠ []) :
    (UpdateByEvents ops marshalTopo unmarshal m "host_relation" events hmget upd).refreshes.Nodup ∧
      (∀ b : Int,
        b ∈ (UpdateByEvents ops marshalTopo unmarshal m "host_relation" events hmget
            upd).refreshes ↔
          ∃ e ∈ events, ∃ f, e.getFloat64 "bk_biz_id" = some f ∧ ops.toInt f = b) ∧
      (∀ u : Int, (∀ e ∈ events, ∃ f, e.getFloat64 "bk_biz_id" = some f ∧ ops.toInt f = u) →
        (UpdateByEvents ops marshalTopo unmarshal m "host_relation" events hmget
          upd).refreshes = [u]) := by
  rw [UpdateByEvents_host_relation_refreshes ops marshalTopo unmarshal m events hmget upd hne]
  have hnd : (GoMap.keys (relationBizIds ops events)).Nodup :=
    nodup_keys_foldl_relationStep ops events [] (by simp [GoMap.keys_nil])
  have hmem : ∀ b : Int, b ∈ GoMap.keys (relationBizIds ops events) ↔
      ∃ e ∈ events, ∃ f, e.getFloat64 "bk_biz_id" = some f ∧ ops.toInt f = b := by
    intro b
    have := mem_keys_foldl_relationStep ops events [] b
    simpa [relationBizIds, GoMap.keys_nil] using this
  refine ⟨hnd, hmem, ?_⟩
  intro u hall
  apply eq_singleton_of_nodup_of_mem_iff _ _ hnd
  intro b
  rw [hmem]
  constructor
  · rintro ⟨e, he, f, hf, hb⟩
    obtain ⟨f', hf', hu⟩ := hall e he
    rw [hf] at hf'
    cases hf'
    rw [← hb, hu]
  · intro hb
    cases events with
    | nil => exact absurd rfl hne
    | cons e rest =>
      obtain ⟨f, hf, hu⟩ := hall e (List.mem_cons_self _ _)
      exact ⟨e, List.mem_cons_self _ _, f, hf, by rw [hu, hb]⟩

/-- C3, witness: three events for unit 5 start one refresh of unit 5. -/
theorem UpdateByEvents_host_relation_witness :
    [relationEvent 5, relationEvent 5, relationEvent 5] ≠ [] ∧
      (UpdateByEvents rationalOps (fun _ _ _ _ => "") (fun _ => Except.error "not used")
        sampleManager "host_relation" [relationEvent 5, relationEvent 5, relationEvent 5]
        (Except.ok []) none).refreshes = [5] :=
  ⟨by simp,
    (UpdateByEvents_host_relation rationalOps (fun _ _ _ _ => "")
      (fun _ => Except.error "not used") sampleManager
      [relationEvent 5, relationEvent 5, relationEvent 5] (Except.ok []) none (by simp)).2.2 5
      (by
        intro e he
        simp only [List.mem_cons, List.mem_singleton, List.not_mem_nil, or_false, or_self] at he
        subst he
        exact ⟨5, rfl, by decide⟩)⟩

/-! ## C8: `RefreshGlobal` -/

/-- C8 (amended): `RefreshGlobal` leaves the manager unchanged and first writes, under the key
of the ip-ownership hash map, a payload with one field per IP of the in-memory index and no
other field; the value of an IP is `[` + the elements of its entry (composite keys in double
quotes) joined by `,` + `]`, in the order in which the map iteration visits them. So two calls
with nothing in between write the same fields, and for each field values that list the same
elements, possibly in a different order; the two payloads are identical when no IP has more
than one element. -/
theorem RefreshGlobal_payload (outer1 outer2 : RangeOrder) (inner1 inner2 : String → RangeOrder)
    (m : HostAndTopoCacheManager) (upd1 upd2 : Option GoError)
    (houter1 : outer1.Legal) (houter2 : outer2.Legal)
    (hinner1 : ∀ ip, (inner1 ip).Legal) (hinner2 : ∀ ip, (inner2 ip).Legal) :
    (RefreshGlobal outer1 inner1 m upd1).1 = m ∧
      (RefreshGlobal outer1 inner1 m upd1).2.1.head? =
        some (BaseCall.updateHashMapCache (m.base.GetCacheKey hostIPCacheKey)
          (hostIpData outer1 inner1 m.hostIpMap)) ∧
      (RefreshGlobal outer2 inner2 (RefreshGlobal outer1 inner1 m upd1).1 upd2).2.1.head? =
        some (BaseCall.updateHashMapCache (m.base.GetCacheKey hostIPCacheKey)
          (hostIpData outer2 inner2 m.hostIpMap)) ∧
      (∀ ip, GoMap.lookup m.hostIpMap ip = none →
        GoMap.lookup (hostIpData outer1 inner1 m.hostIpMap) ip = none ∧
          GoMap.lookup (hostIpData outer2 inner2 m.hostIpMap) ip = none) ∧
      (∀ ip hostIdMapping, GoMap.lookup m.hostIpMap ip = some hostIdMapping →
        ∃ keys1 keys2 : List String,
          keys1.Perm (GoMap.keys hostIdMapping) ∧ keys2.Perm (GoMap.keys hostIdMapping) ∧
            GoMap.lookup (hostIpData outer1 inner1 m.hostIpMap) ip
              = some ("[" ++ stringsJoin keys1 "," ++ "]") ∧
            GoMap.lookup (hostIpData outer2 inner2 m.hostIpMap) ip
              = some ("[" ++ stringsJoin keys2 "," ++ "]")) ∧
      ((∀ ip hostIdMapping, GoMap.lookup m.hostIpMap ip = some hostIdMapping →
          (GoMap.keys hostIdMapping).length ≤ 1) →
        ∀ ip, GoMap.lookup (hostIpData outer1 inner1 m.hostIpMap) ip
          = GoMap.lookup (hostIpData outer2 inner2 m.hostIpMap) ip) := by
  have hstate : (RefreshGlobal outer1 inner1 m upd1).1 = m := by
    unfold RefreshGlobal
    cases upd1 <;> rfl
  refine ⟨hstate, ?_, ?_, ?_, ?_, ?_⟩
  · unfold RefreshGlobal
    cases upd1 <;> rfl
  · rw [hstate]
    unfold RefreshGlobal
    cases upd2 <;> rfl
  · intro ip hnone
    rw [lookup_hostIpData _ _ _ houter1, lookup_hostIpData _ _ _ houter2, hnone]
    exact ⟨rfl, rfl⟩
  · intro ip mapping hsome
    refine ⟨inner1 ip (GoMap.keys mapping), inner2 ip (GoMap.keys mapping),
      hinner1 ip _, hinner2 ip _, ?_, ?_⟩
    · rw [lookup_hostIpData _ _ _ houter1, hsome]
      rfl
    · rw [lookup_hostIpData _ _ _ houter2, hsome]
      rfl
  · intro hsmall ip
    rw [lookup_hostIpData _ _ _ houter1, lookup_hostIpData _ _ _ houter2]
    cases hsome : GoMap.lookup m.hostIpMap ip with
    | none => rfl
    | some mapping =>
      have hlen := hsmall ip mapping hsome
      have h1 := perm_eq_of_length_le_one _ _ (hinner1 ip (GoMap.keys mapping)) hlen
      have h2 := perm_eq_of_length_le_one _ _ (hinner2 ip (GoMap.keys mapping)) hlen
      simp [hostIpValue, h1, h2]

/-- C8, witness: two legal iteration orders, the identity and the reversal, on the index
holding `10.0.0.1|0` and `10.0.0.1|1`. -/
theorem RefreshGlobal_payload_witness :
    RangeOrder.Legal id ∧ RangeOrder.Legal List.reverse ∧
      (RefreshGlobal id (fun _ => List.reverse)
        (RefreshByBiz jsonMarshal sampleManager
          (sampleApi [sampleRaw "10.0.0.1" 0 1 [], sampleRaw "10.0.0.1" 1 2 []] []) 5
          publishOk).1 none).1 =
        (RefreshByBiz jsonMarshal sampleManager
          (sampleApi [sampleRaw "10.0.0.1" 0 1 [], sampleRaw "10.0.0.1" 1 2 []] []) 5
          publishOk).1 :=
  ⟨legal_id, legal_reverse,
    (RefreshGlobal_payload id id (fun _ => List.reverse) (fun _ => id)
      (RefreshByBiz jsonMarshal sampleManager
        (sampleApi [sampleRaw "10.0.0.1" 0 1 [], sampleRaw "10.0.0.1" 1 2 []] []) 5
        publishOk).1 none none legal_id legal_id (fun _ => legal_reverse) (fun _ => legal_id)).1⟩

/-- C8, counterexample: the index holds `10.0.0.1|0` and `10.0.0.1|1` under `10.0.0.1`. A
call whose iteration visits them in this order writes `["10.0.0.1|0","10.0.0.1|1"]`, a call
whose iteration visits them in the other order writes `["10.0.0.1|1","10.0.0.1|0"]`. -/
theorem RefreshGlobal_payload_counterexample :
    ¬ (∀ inner1 inner2 : String → RangeOrder,
        (∀ ip, (inner1 ip).Legal) → (∀ ip, (inner2 ip).Legal) →
          ∀ ip,
            GoMap.lookup
                (writtenData (RefreshGlobal id inner1
                  (RefreshByBiz jsonMarshal sampleManager
                    (sampleApi [sampleRaw "10.0.0.1" 0 1 [], sampleRaw "10.0.0.1" 1 2 []] []) 5
                    publishOk).1 none).2.1) ip =
              GoMap.lookup
                (writtenData (RefreshGlobal id inner2
                  (RefreshByBiz jsonMarshal sampleManager
                    (sampleApi [sampleRaw "10.0.0.1" 0 1 [], sampleRaw "10.0.0.1" 1 2 []] []) 5
                    publishOk).1 none).2.1) ip) := by
  intro hclaim
  have h := hclaim (fun _ => id) (fun _ => List.reverse) (fun _ => legal_id)
    (fun _ => legal_reverse) "10.0.0.1"
  revert h
  decide

/-! ## C9: attaching the topo links -/

/-- C9: in the hosts a successful `getHostAndTopoByBiz` returns, the `TopoLinks` of a host maps
a key to a chain exactly when the key is `module|<id>` for an id of the host's module-id list
that the computed map holds, the chain being the computed chain of that id; a module id that
the computed map lacks gives no key; and the fetch succeeds whatever map is computed. -/
theorem getHostAndTopoByBiz_topo_links (api : CmdbApi) (bkBizID : Int)
    (hosts : List AlarmHostInfo) (topo : SearchBizInstTopoData)
    (hfetch : getHostAndTopoByBiz api bkBizID = GoResult.ok (hosts, topo)) :
    (∀ host ∈ hosts, ∀ (k : String) (v : List TopoLinkNode),
        GoMap.lookup host.TopoLinks k = some v ↔
          ∃ id ∈ goRange host.BkModuleIds,
            k = moduleKey id ∧ GoMap.lookup (api.ToTopoLinks topo) id = some v) ∧
      (∀ host ∈ hosts, ∀ id ∈ goRange host.BkModuleIds,
        GoMap.lookup (api.ToTopoLinks topo) id = none →
          GoMap.lookup host.TopoLinks (moduleKey id) = none) ∧
      (∀ toTopoLinks : SearchBizInstTopoData → GoMap Int (List TopoLinkNode),
        ∃ hosts1, getHostAndTopoByBiz { api with ToTopoLinks := toTopoLinks } bkBizID =
          GoResult.ok (hosts1, topo)) := by
  obtain ⟨hosts0, hempty, hmap, hany⟩ := getHostAndTopoByBiz_ok api bkBizID hosts topo hfetch
  have hiff : ∀ host ∈ hosts, ∀ (k : String) (v : List TopoLinkNode),
      GoMap.lookup host.TopoLinks k = some v ↔
        ∃ id ∈ goRange host.BkModuleIds,
          k = moduleKey id ∧ GoMap.lookup (api.ToTopoLinks topo) id = some v := by
    intro host hmem k v
    rw [hmap] at hmem
    obtain ⟨h0, hmem0, rfl⟩ := List.mem_map.mp hmem
    exact lookup_attachTopoLinks _ h0 (hempty h0 hmem0) k v
  refine ⟨hiff, ?_, ?_⟩
  · intro host hmem id hid hnone
    cases hl : GoMap.lookup host.TopoLinks (moduleKey id) with
    | none => rfl
    | some v =>
      obtain ⟨id', _, hkey, hsome⟩ := (hiff host hmem (moduleKey id) v).mp hl
      have := moduleKey_injective _ _ hkey
      subst this
      rw [hnone] at hsome
      cases hsome
  · intro toTopoLinks
    exact ⟨_, hany toTopoLinks⟩

/-- C9, witness: a host in modules 100 and 200, the computed map holding only module 100. -/
theorem getHostAndTopoByBiz_topo_links_witness :
    getHostAndTopoByBiz
        (sampleApi [sampleRaw "10.0.0.1" 0 1 [100, 200]] [(100, sampleChain)]) 5
        = GoResult.ok ([sampleHostWithModules], sampleRoot) ∧
      GoMap.lookup sampleHostWithModules.TopoLinks (moduleKey 100) = some sampleChain ∧
      GoMap.lookup sampleHostWithModules.TopoLinks (moduleKey 200) = none :=
  have hthm :=
    getHostAndTopoByBiz_topo_links
      (sampleApi [sampleRaw "10.0.0.1" 0 1 [100, 200]] [(100, sampleChain)]) 5
      [sampleHostWithModules] sampleRoot rfl
  ⟨rfl,
    (hthm.1 sampleHostWithModules (List.mem_cons_self _ _) (moduleKey 100) sampleChain).mpr
      ⟨100, List.mem_cons_self _ _, rfl, rfl⟩,
    hthm.2.1 sampleHostWithModules (List.mem_cons_self _ _) 200
      (List.mem_cons_of_mem _ (List.mem_cons_self _ _)) rfl⟩

/-! ## C10: operators -/

/-- C10: the normalizer returns a host for every raw record; its `Operator` (and likewise its
`BkBakOperator`) is the empty non-nil slice when the raw string is empty, and otherwise the raw
string split at every comma, in order: a non-empty list of comma-free parts whose join with
`,` is the raw string. -/
theorem normalizer_operators (info : ListBizHostsTopoDataInfo) :
    ∃ host, NewAlarmHostInfoByListBizHostsTopoDataInfo info = GoResult.ok host ∧
      (info.Host.Operator = "" → host.Operator = some []) ∧
      (info.Host.Operator ≠ "" →
        host.Operator = some (stringsSplit info.Host.Operator ',') ∧
          stringsSplit info.Host.Operator ',' ≠ [] ∧
          stringsJoin (stringsSplit info.Host.Operator ',') "," = info.Host.Operator ∧
          ∀ part ∈ stringsSplit info.Host.Operator ',', ',' ∉ part.data) ∧
      (info.Host.BkBakOperator = "" → host.BkBakOperator = some []) ∧
      (info.Host.BkBakOperator ≠ "" →
        host.BkBakOperator = some (stringsSplit info.Host.BkBakOperator ',') ∧
          stringsSplit info.Host.BkBakOperator ',' ≠ [] ∧
          stringsJoin (stringsSplit info.Host.BkBakOperator ',') "," = info.Host.BkBakOperator ∧
          ∀ part ∈ stringsSplit info.Host.BkBakOperator ',', ',' ∉ part.data) := by
  obtain ⟨host, hok, hop, hbak⟩ := normalizer_ok info
  refine ⟨host, hok, ?_, ?_, ?_, ?_⟩
  · intro h
    rw [hop]
    exact (splitOperator_spec _).1 h
  · intro h
    rw [hop]
    exact (splitOperator_spec _).2 h
  · intro h
    rw [hbak]
    exact (splitOperator_spec _).1 h
  · intro h
    rw [hbak]
    exact (splitOperator_spec _).2 h

/-! ## Lemmas on the agent-id index -/

theorem agentIDIndex_eq_foldl (hosts : List AlarmHostInfo) :
    agentIDIndex hosts = hosts.foldl agentIDStep [] := rfl

theorem mem_keys_agentIDStep (acc : GoMap String String) (h : AlarmHostInfo) (k : String) :
    k ∈ GoMap.keys (agentIDStep acc h) ↔
      k ∈ GoMap.keys acc ∨ (h.BkAgentId ≠ "" ∧ k = h.BkAgentId) := by
  unfold agentIDStep
  by_cases ha : h.BkAgentId = ""
  · simp [ha]
  · simp only [ha, ne_eq, not_false_eq_true, if_true, GoMap.mem_keys_store, true_and]
    constructor
    · rintro (h1 | h1)
      · exact Or.inr h1
      · exact Or.inl h1
    · rintro (h1 | h1)
      · exact Or.inr h1
      · exact Or.inl h1

theorem mem_keys_foldl_agentIDStep (hosts : List AlarmHostInfo) :
    ∀ (acc : GoMap String String) (k : String),
      k ∈ GoMap.keys (hosts.foldl agentIDStep acc) ↔
        k ∈ GoMap.keys acc ∨ ∃ h ∈ hosts, h.BkAgentId ≠ "" ∧ k = h.BkAgentId := by
  induction hosts with
  | nil => intro acc k; simp
  | cons h rest ih =>
    intro acc k
    rw [List.foldl_cons, ih, mem_keys_agentIDStep]
    simp only [List.mem_cons, exists_eq_or_imp]
    constructor
    · rintro ((h1 | h1) | h1)
      · exact Or.inl h1
      · exact Or.inr (Or.inl h1)
      · exact Or.inr (Or.inr h1)
    · rintro (h1 | h1 | h1)
      · exact Or.inl (Or.inl h1)
      · exact Or.inl (Or.inr h1)
      · exact Or.inr h1

theorem nodup_keys_foldl_agentIDStep (hosts : List AlarmHostInfo) :
    ∀ acc : GoMap String String, (GoMap.keys acc).Nodup →
      (GoMap.keys (hosts.foldl agentIDStep acc)).Nodup := by
  induction hosts with
  | nil => intro acc h; simpa using h
  | cons h rest ih =>
    intro acc hacc
    rw [List.foldl_cons]
    apply ih
    unfold agentIDStep
    by_cases ha : h.BkAgentId = ""
    · simpa [ha] using hacc
    · simp only [ha, ne_eq, not_false_eq_true, if_true]
      exact GoMap.nodup_keys_store _ _ _ hacc

theorem lookup_foldl_agentIDStep_other (post : List AlarmHostInfo) :
    ∀ (acc : GoMap String String) (k : String), (∀ x ∈ post, x.BkAgentId ≠ k) →
      GoMap.lookup (post.foldl agentIDStep acc) k = GoMap.lookup acc k := by
  induction post with
  | nil => intro acc k _; rfl
  | cons h rest ih =>
    intro acc k hne
    rw [List.foldl_cons, ih _ _ (fun x hx => hne x (List.mem_cons_of_mem _ hx))]
    unfold agentIDStep
    by_cases ha : h.BkAgentId = ""
    · simp [ha]
    · simp only [ha, ne_eq, not_false_eq_true, if_true]
      exact GoMap.lookup_store_ne _ _ _ _ (Ne.symm (hne h (List.mem_cons_self _ _)))

theorem mem_agentIds (hosts : List AlarmHostInfo) (k : String) :
    k ∈ agentIds hosts ↔ ∃ h ∈ hosts, h.BkAgentId ≠ "" ∧ k = h.BkAgentId := by
  unfold agentIds
  simp only [List.mem_map, List.mem_filter, decide_eq_true_eq]
  constructor
  · rintro ⟨h, ⟨hmem, hne⟩, rfl⟩
    exact ⟨h, hmem, hne, rfl⟩
  · rintro ⟨h, hmem, hne, rfl⟩
    exact ⟨h, ⟨hmem, hne⟩, rfl⟩

theorem length_agentIds (hosts : List AlarmHostInfo) :
    (agentIds hosts).length = (hosts.filter fun host => decide (host.BkAgentId ≠ "")).length := by
  simp [agentIds]

/-! ## Lemmas on `mainline_instance` events -/

theorem updateTopoNodes_of_well_typed {F : Type} (ops : Float64Ops F)
    (marshalTopo : Int → Option (EventValue F) → String → Option (EventValue F) → String)
    (events : List (Event F)) :
    ∀ acc : GoMap String String,
      (∀ e ∈ events, ∃ o f, e.getString "bk_obj_id" = some o ∧
        e.getFloat64 "bk_inst_id" = some f) →
      ∃ nodes, updateTopoNodes ops marshalTopo acc events = GoResult.ok nodes ∧
        ∀ k, k ∈ GoMap.keys nodes ↔
          k ∈ GoMap.keys acc ∨
            ∃ e ∈ events, ∃ o f, e.getString "bk_obj_id" = some o ∧
              e.getFloat64 "bk_inst_id" = some f ∧ k = o ++ "|" ++ itoa (ops.toInt f) := by
  induction events with
  | nil =>
    intro acc _
    exact ⟨acc, rfl, by simp⟩
  | cons e rest ih =>
    intro acc hall
    obtain ⟨o, f, ho, hf⟩ := hall e (List.mem_cons_self _ _)
    obtain ⟨nodes, hok, hkeys⟩ :=
      ih (GoMap.store acc (o ++ "|" ++ itoa (ops.toInt f))
          (marshalTopo (ops.toInt f) (GoMap.lookup e "bk_inst_name") o
            (GoMap.lookup e "bk_obj_name")))
        (fun x hx => hall x (List.mem_cons_of_mem _ hx))
    refine ⟨nodes, ?_, ?_⟩
    · simp only [updateTopoNodes, Event.mustString, Event.mustFloat64, ho, hf, GoResult.bind]
      exact hok
    · intro k
      rw [hkeys, GoMap.mem_keys_store]
      simp only [List.mem_cons, exists_eq_or_imp, ho, hf, Option.some.injEq]
      constructor
      · rintro ((h1 | h1) | h1)
        · exact Or.inr (Or.inl ⟨o, f, ⟨rfl, rfl, h1⟩⟩)
        · exact Or.inl h1
        · exact Or.inr (Or.inr h1)
      · rintro (h1 | ⟨o', f', ho', hf', hk⟩ | h1)
        · exact Or.inl (Or.inr h1)
        · subst ho' hf'
          exact Or.inl (Or.inl hk)
        · exact Or.inr h1

theorem updateTopoNodes_panics {F : Type} (ops : Float64Ops F)
    (marshalTopo : Int → Option (EventValue F) → String → Option (EventValue F) → String)
    (events : List (Event F)) :
    ∀ acc : GoMap String String,
      (∃ e ∈ events, e.getString "bk_obj_id" = none ∨ e.getFloat64 "bk_inst_id" = none) →
      ∃ msg, updateTopoNodes ops marshalTopo acc events = GoResult.panic msg := by
  induction events with
  | nil =>
    intro acc hbad
    obtain ⟨e, he, _⟩ := hbad
    cases he
  | cons e rest ih =>
    intro acc hbad
    cases ho : e.getString "bk_obj_id" with
    | none =>
      exact ⟨"interface conversion: interface is not string", by
        simp [updateTopoNodes, Event.mustString, ho, GoResult.bind]⟩
    | some o =>
      cases hf : e.getFloat64 "bk_inst_id" with
      | none =>
        exact ⟨"interface conversion: interface is not float64", by
          simp [updateTopoNodes, Event.mustString, Event.mustFloat64, ho, hf, GoResult.bind]⟩
      | some f =>
        have hrest : ∃ x ∈ rest,
            x.getString "bk_obj_id" = none ∨ x.getFloat64 "bk_inst_id" = none := by
          obtain ⟨x, hx, hxbad⟩ := hbad
          rcases List.mem_cons.mp hx with hx | hx
          · subst hx
            rcases hxbad with h | h
            · rw [ho] at h; cases h
            · rw [hf] at h; cases h
          · exact ⟨x, hx, hxbad⟩
        obtain ⟨msg, hmsg⟩ := ih (GoMap.store acc (o ++ "|" ++ itoa (ops.toInt f))
          (marshalTopo (ops.toInt f) (GoMap.lookup e "bk_inst_name") o
            (GoMap.lookup e "bk_obj_name"))) hrest
        exact ⟨msg, by
          simp only [updateTopoNodes, Event.mustString, Event.mustFloat64, ho, hf,
            GoResult.bind]
          exact hmsg⟩

theorem cleanTopoIds_panics {F : Type} (ops : Float64Ops F) (events : List (Event F)) :
    ∀ acc : List String, (∃ e ∈ events, e.getString "bk_obj_id" = none) →
      ∃ msg, cleanTopoIds ops acc events = GoResult.panic msg := by
  induction events with
  | nil =>
    intro acc hbad
    obtain ⟨e, he, _⟩ := hbad
    cases he
  | cons e rest ih =>
    intro acc hbad
    cases ho : e.getString "bk_obj_id" with
    | none =>
      exact ⟨"interface conversion: interface is not string", by
        simp [cleanTopoIds, Event.mustString, ho, GoResult.bind]⟩
    | some o =>
      have hrest : ∃ x ∈ rest, x.getString "bk_obj_id" = none := by
        obtain ⟨x, hx, hxbad⟩ := hbad
        rcases List.mem_cons.mp hx with hx | hx
        · subst hx
          rw [ho] at hxbad
          cases hxbad
        · exact ⟨x, hx, hxbad⟩
      cases hf : e.getFloat64 "bk_inst_id" with
      | none =>
        obtain ⟨msg, hmsg⟩ := ih acc hrest
        exact ⟨msg, by
          simp only [cleanTopoIds, Event.mustString, ho, hf, GoResult.bind]
          exact hmsg⟩
      | some f =>
        obtain ⟨msg, hmsg⟩ := ih (acc ++ [o ++ "|" ++ itoa (ops.toInt f)]) hrest
        exact ⟨msg, by
          simp only [cleanTopoIds, Event.mustString, ho, hf, GoResult.bind]
          exact hmsg⟩

theorem UpdateByEvents_mainline_panics {F : Type} (ops : Float64Ops F)
    (marshalTopo : Int → Option (EventValue F) → String → Option (EventValue F) → String)
    (unmarshal : String → Except GoError (Option AlarmHostInfo))
    (m : HostAndTopoCacheManager) (events : List (Event F))
    (hmget : Except GoError (List (Option String))) (upd : Option GoError)
    (hbad : ∃ e ∈ events, e.getString "bk_obj_id" = none ∨ e.getFloat64 "bk_inst_id" = none) :
    ∃ msg, (UpdateByEvents ops marshalTopo unmarshal m "mainline_instance" events hmget
      upd).result = GoResult.panic msg := by
  have hlen : events.length ≠ 0 := by
    intro h
    obtain ⟨e, he, _⟩ := hbad
    rw [List.length_eq_zero.mp h] at he
    cases he
  have h1 : ("mainline_instance" : String) ≠ "host" := by decide
  obtain ⟨msg, hmsg⟩ := updateTopoNodes_panics ops marshalTopo events [] hbad
  exact ⟨msg, by simp [UpdateByEvents, hlen, h1, hmsg]⟩

theorem CleanByEvents_mainline_panics {F : Type} (ops : Float64Ops F)
    (m : HostAndTopoCacheManager) (events : List (Event F)) (hdel : Option GoError)
    (hbad : ∃ e ∈ events, e.getString "bk_obj_id" = none) :
    ∃ msg, (CleanByEvents ops m "mainline_instance" events hdel).2 = GoResult.panic msg := by
  have hlen : events.length ≠ 0 := by
    intro h
    obtain ⟨e, he, _⟩ := hbad
    rw [List.length_eq_zero.mp h] at he
    cases he
  have h1 : ("mainline_instance" : String) ≠ "host" := by decide
  obtain ⟨msg, hmsg⟩ := cleanTopoIds_panics ops events [] hbad
  exact ⟨msg, by simp [CleanByEvents, hlen, h1, hmsg]⟩

/-! ## C11: effective state -/

/-- C11: the normalizer returns a host for every raw record, also when the service-status and
legacy-state pointers are nil; its `BkState` is the service status when that is present and
non-empty, else the legacy state when that is present, else the empty string. -/
theorem normalizer_effective_state (info : ListBizHostsTopoDataInfo) :
    ∃ host, NewAlarmHostInfoByListBizHostsTopoDataInfo info = GoResult.ok host ∧
      (∀ s, info.Host.SrvStatus = some s → s ≠ "" → host.BkState = s) ∧
      ((info.Host.SrvStatus = none ∨ info.Host.SrvStatus = some "") →
        ∀ b, info.Host.BkState = some b → host.BkState = b) ∧
      ((info.Host.SrvStatus = none ∨ info.Host.SrvStatus = some "") →
        info.Host.BkState = none → host.BkState = "") := by
  unfold NewAlarmHostInfoByListBizHostsTopoDataInfo
  cases hs : info.Host.SrvStatus with
  | none =>
    cases hb : info.Host.BkState with
    | none => exact ⟨_, rfl, by simp, by simp, by simp⟩
    | some b => exact ⟨_, rfl, by simp, by simp, by simp⟩
  | some s =>
    by_cases hempty : s = ""
    · subst hempty
      cases hb : info.Host.BkState with
      | none => exact ⟨_, rfl, by simp, by simp, by simp⟩
      | some b => exact ⟨_, rfl, by simp, by simp, by simp⟩
    · simp only [hempty, ne_eq, not_false_eq_true, if_true, deref, GoResult.bind]
      refine ⟨_, rfl, ?_, ?_, ?_⟩
      · intro s' hs' _
        cases hs'
        rfl
      · rintro (h | h)
        · cases h
        · exact absurd (Option.some.inj h) hempty
      · rintro (h | h)
        · cases h
        · exact absurd (Option.some.inj h) hempty

/-! ## C12: the agent-id index -/

/-- C12 (amended): the map `refreshHostAgentIDCache` hands to `UpdateHashMapCache` is the
agent-id index; its keys are exactly the non-empty agent ids of the hosts, each once; a host
with a non-empty agent id after which no host has the same agent id finds the decimal string
of its host id under its agent id; the number of entries is the number of distinct non-empty
agent ids, which is the number of hosts with a non-empty agent id when those agent ids are
pairwise distinct; a host with an empty agent id changes nothing. -/
theorem refreshHostAgentIDCache_index (m : HostAndTopoCacheManager) (upd : Option GoError) :
    (refreshHostAgentIDCache m upd).1 =
        [BaseCall.updateHashMapCache (m.base.GetCacheKey hostAgentIDCacheKey)
          (agentIDIndex m.hosts)] ∧
      (∀ k, k ∈ GoMap.keys (agentIDIndex m.hosts) ↔
        ∃ h ∈ m.hosts, h.BkAgentId ≠ "" ∧ k = h.BkAgentId) ∧
      (GoMap.keys (agentIDIndex m.hosts)).Nodup ∧
      (∀ pre h post, m.hosts = pre ++ h :: post → h.BkAgentId ≠ "" →
        (∀ x ∈ post, x.BkAgentId ≠ h.BkAgentId) →
          GoMap.lookup (agentIDIndex m.hosts) h.BkAgentId = some (itoa h.BkHostId)) ∧
      (agentIDIndex m.hosts).length = (agentIds m.hosts).dedup.length ∧
      ((agentIds m.hosts).Nodup →
        (agentIDIndex m.hosts).length =
          (m.hosts.filter fun host => decide (host.BkAgentId ≠ "")).length) ∧
      (∀ pre h post, m.hosts = pre ++ h :: post → h.BkAgentId = "" →
        agentIDIndex m.hosts = agentIDIndex (pre ++ post)) := by
  have hkeys : ∀ k, k ∈ GoMap.keys (agentIDIndex m.hosts) ↔
      ∃ h ∈ m.hosts, h.BkAgentId ≠ "" ∧ k = h.BkAgentId := by
    intro k
    have := mem_keys_foldl_agentIDStep m.hosts [] k
    simpa [agentIDIndex_eq_foldl, GoMap.keys_nil] using this
  have hnd : (GoMap.keys (agentIDIndex m.hosts)).Nodup := by
    rw [agentIDIndex_eq_foldl]
    exact nodup_keys_foldl_agentIDStep m.hosts [] (by simp [GoMap.keys_nil])
  have hlen : (agentIDIndex m.hosts).length = (agentIds m.hosts).dedup.length := by
    have hperm : (GoMap.keys (agentIDIndex m.hosts)).Perm (agentIds m.hosts).dedup := by
      rw [List.perm_ext_iff_of_nodup hnd (List.nodup_dedup _)]
      intro k
      rw [hkeys, List.mem_dedup, mem_agentIds]
    have := hperm.length_eq
    simpa [GoMap.keys] using this
  refine ⟨rfl, hkeys, hnd, ?_, hlen, ?_, ?_⟩
  · intro pre h post hsplit ha hlast
    rw [hsplit, agentIDIndex_eq_foldl, List.foldl_append, List.foldl_cons,
      lookup_foldl_agentIDStep_other post _ _ hlast]
    simp [agentIDStep, ha, GoMap.lookup_store_self]
  · intro hdistinct
    rw [hlen, List.Nodup.dedup hdistinct, length_agentIds]
  · intro pre h post hsplit ha
    rw [hsplit]
    simp [agentIDIndex_eq_foldl, List.foldl_append, agentIDStep, ha]

/-- C12, counterexample: hosts 1 and 2 both with the agent id `agent-a`. The index has the one
entry `agent-a` to `2`: one entry for two hosts, and host 1 does not find its own id. -/
theorem refreshHostAgentIDCache_index_counterexample :
    ¬ ((∀ h ∈ [sampleAgentHost "agent-a" 1, sampleAgentHost "agent-a" 2], h.BkAgentId ≠ "" →
          GoMap.lookup (agentIDIndex [sampleAgentHost "agent-a" 1, sampleAgentHost "agent-a" 2])
            h.BkAgentId = some (itoa h.BkHostId)) ∧
        (agentIDIndex [sampleAgentHost "agent-a" 1, sampleAgentHost "agent-a" 2]).length =
          ([sampleAgentHost "agent-a" 1, sampleAgentHost "agent-a" 2].filter
            fun host => decide (host.BkAgentId ≠ "")).length) := by
  rintro ⟨_, hcount⟩
  revert hcount
  decide

/-! ## C13: `mainline_instance` events -/

/-- C13, the code at the failing inputs: `UpdateByEvents` panics on a batch holding an event
without a numeric `bk_inst_id`, and on one holding an event without a string `bk_obj_id`;
`CleanByEvents` panics on an event without a string `bk_obj_id`, while it skips an event
without a numeric `bk_inst_id`; a batch of events that have both fields is keyed
`<bk_obj_id>|<int(bk_inst_id)>`. -/
theorem mainline_instance_events_panic :
    (UpdateByEvents rationalOps sampleMarshalTopo (fun _ => Except.error "not used")
        sampleManager "mainline_instance" [topoEvent "set" 3, topoEventNoInstId] (Except.ok [])
        none).result = GoResult.panic "interface conversion: interface is not float64" ∧
      (UpdateByEvents rationalOps sampleMarshalTopo (fun _ => Except.error "not used")
        sampleManager "mainline_instance" [topoEventNoObjId] (Except.ok [])
        none).result = GoResult.panic "interface conversion: interface is not string" ∧
      (CleanByEvents rationalOps sampleManager "mainline_instance"
        [topoEvent "set" 3, topoEventNoObjId] none).2
          = GoResult.panic "interface conversion: interface is not string" ∧
      (CleanByEvents rationalOps sampleManager "mainline_instance"
        [topoEventNoInstId, topoEvent "set" 3] none)
          = ([BaseCall.hdel (sampleManager.base.GetCacheKey topoCacheKey) ["set|3"]],
              GoResult.ok ()) ∧
      (UpdateByEvents rationalOps sampleMarshalTopo (fun _ => Except.error "not used")
        sampleManager "mainline_instance" [topoEvent "set" 3, topoEvent "module" 4]
        (Except.ok []) none).calls
          = [BaseCall.updateHashMapCache (sampleManager.base.GetCacheKey topoCacheKey)
              [("set|3", "set:3"), ("module|4", "module:4")]] :=
  ⟨rfl, rfl, rfl, rfl, rfl⟩

end Cmdbcache
